import Mathlib

/-!
Shallow embedding of the `woff2-rs` WOFF2-to-TTF decoder, together with
theorems checking the natural-language specification against it.

Conventions of the embedding:
* A byte stream is a `List Nat`; each element stands for one `u8`
  (so it is `< 256` for every stream that comes from a real buffer).
  Reader operations consume from the front of the list and return the
  remaining suffix, mirroring `bytes::Buf`.
* Machine integers are `Nat` with explicit `% 2 ^ w` at the points where
  the Rust code can wrap; `i16` values are `Int` in `[-32768, 32767]`
  produced by `toSigned16`.  Overflowing Rust arithmetic is modelled with
  the release-profile (wrapping / masked-shift) semantics.
* Bit tests on bytes are written arithmetically:
  for `b < 256`, `b & 0x80 == 0` is `b < 128`, `b & 0x7F` is `b % 128`,
  `b & 0x3F` is `b % 64`, and `(b & 0xC0) >> 6` is `b / 64 % 4`.
* Fallible code returns `Option` (single error cause) or `Except`.
* The Brotli decompressor is an external collaborator of the crate; it is
  passed in as an oracle `List Nat → Option (List Nat × Nat)` returning
  the decompressed bytes and the number of input bytes consumed.
-/

set_option maxHeartbeats 1000000
set_option maxRecDepth 8000

/-- Big-endian 32-bit word assembled from four bytes (`u32::from_be_bytes`). -/
def wordBE (a b c d : Nat) : Nat := ((a * 256 + b) * 256 + c) * 256 + d

/-- Big-endian byte serialisation of a `u32` (`BufMut::put_u32`). -/
def u32BEBytes (v : Nat) : List Nat :=
  [v / 16777216 % 256, v / 65536 % 256, v / 256 % 256, v % 256]

/-- Big-endian byte serialisation of a `u16` (`BufMut::put_u16`). -/
def u16BEBytes (v : Nat) : List Nat := [v / 256 % 256, v % 256]

/-- Two's-complement signed view of a 16-bit big-endian value. -/
def toSigned16 (n : Nat) : Int := if n < 32768 then (n : Int) else (n : Int) - 65536

/-- Wrap an integer into the `i16` range (release-profile wrapping arithmetic). -/
def wrap16 (v : Int) : Int := toSigned16 (v % 65536).toNat

/-- Big-endian byte serialisation of an `i16` (`BufMut::put_i16`). -/
def i16BEBytes (v : Int) : List Nat := u16BEBytes (v % 65536).toNat

/-- The `n` bytes of `l` starting at offset `off` (for stating slice facts). -/
def readBytes (l : List Nat) (off n : Nat) : List Nat := (l.drop off).take n

/-- Slice `l[a..b]` of a byte buffer (callers guarantee `a ≤ b ≤ l.length`). -/
def sliceBytes (l : List Nat) (a b : Nat) : List Nat := (l.drop a).take (b - a)

/-! ## buffer_util.rs -/

/-- Embeds `SafeBuf::try_get_u8`; `none` is the `Truncated` error. -/
def try_get_u8 : List Nat → Option (Nat × List Nat)
  | [] => none
  | b :: rest => some (b, rest)

/-- Embeds `SafeBuf::try_get_u16` (big-endian). -/
def try_get_u16 : List Nat → Option (Nat × List Nat)
  | b0 :: b1 :: rest => some (b0 * 256 + b1, rest)
  | _ => none

/-- Embeds `SafeBuf::try_get_u32` (big-endian). -/
def try_get_u32 : List Nat → Option (Nat × List Nat)
  | b0 :: b1 :: b2 :: b3 :: rest => some (wordBE b0 b1 b2 b3, rest)
  | _ => none

/-- Embeds `SafeBuf::try_get_i16` (big-endian, two's complement). -/
def try_get_i16 (l : List Nat) : Option (Int × List Nat) :=
  match try_get_u16 l with
  | none => none
  | some (v, rest) => some (toSigned16 v, rest)

/-- A four-byte identifier, `four_cc::FourCC`. -/
structure FourCC where
  b0 : Nat
  b1 : Nat
  b2 : Nat
  b3 : Nat
deriving DecidableEq

instance : Inhabited FourCC := ⟨⟨0, 0, 0, 0⟩⟩

/-- The four bytes of a tag, in order. -/
def FourCC.bytes (t : FourCC) : List Nat := [t.b0, t.b1, t.b2, t.b3]

/-- Embeds `BufExt::try_get_four_cc`. -/
def try_get_four_cc : List Nat → Option (FourCC × List Nat)
  | b0 :: b1 :: b2 :: b3 :: rest => some (⟨b0, b1, b2, b3⟩, rest)
  | _ => none

/-- Embeds `BufExt::try_get_255_u16`.  The constants in the source are
`WORD_CODE = 253`, `ONE_MORE_BYTE_CODE_1 = 255`, `ONE_MORE_BYTE_CODE_2 = 254`,
`LOWEST_UCODE = 253`. -/
def try_get_255_u16 (l : List Nat) : Option (Nat × List Nat) :=
  match l with
  | [] => none
  | code :: rest =>
    if code = 253 then try_get_u16 rest
    else if code = 255 then
      match try_get_u8 rest with
      | none => none
      | some (b, rest') => some (b + 253, rest')
    else if code = 254 then
      match try_get_u8 rest with
      | none => none
      | some (b, rest') => some (b + 2 * 253, rest')
    else some (code, rest)

/-- Embeds `buffer_util::Base128Error`. -/
inductive Base128Error where
  | LeadingZero
  | MoreThan5Bytes
  | Truncated
  | Overflow
deriving DecidableEq

/-- The `for i in 0..5` loop of `BufExt::try_get_base_128`, with `iter`
counting the remaining iterations (so the first iteration has `iter = 5`,
which is the `i == 0` test of the source).  `accum` is the `u32`
accumulator; the guard `accum / 2 ^ 25 ≠ 0` is the source's
`accum >> 25 != 0`, and under it the update
`(accum << 7) | (byte & 0x7F)` cannot wrap, so the `% 2 ^ 32` is the
`u32` container.  For a byte `b < 256`, `b & 0x80 == 0` is `b < 128`. -/
def try_get_base_128_loop : Nat → Nat → List Nat → Except Base128Error (Nat × List Nat)
  | 0, _, _ => .error .MoreThan5Bytes
  | _ + 1, _, [] => .error .Truncated
  | i + 1, accum, byte :: rest =>
    if i = 4 ∧ byte = 128 then .error .LeadingZero
    else if accum / 2 ^ 25 ≠ 0 then .error .Overflow
    else
      let accum' := (accum * 128 + byte % 128) % 4294967296
      if byte < 128 then .ok (accum', rest)
      else try_get_base_128_loop i accum' rest

/-- Embeds `BufExt::try_get_base_128`. -/
def try_get_base_128 (l : List Nat) : Except Base128Error (Nat × List Nat) :=
  try_get_base_128_loop 5 0 l

/-- Embeds `BufExt::try_copy_to_buf`: append `n` bytes of `src` to `dest`,
returning the advanced source and the extended destination. -/
def try_copy_to_buf (src dest : List Nat) (n : Nat) : Option (List Nat × List Nat) :=
  if src.length < n then none else some (src.drop n, dest ++ src.take n)

/-- Embeds `buffer_util::pad_to_multiple_of_four` (appends zero bytes). -/
def pad_to_multiple_of_four (buffer : List Nat) : List Nat :=
  buffer ++ List.replicate ((4 - buffer.length % 4) % 4) 0

/-! ## checksum.rs -/

/-- Embeds `checksum::calculate_checksum`: the wrapping `u32` sum of the
big-endian 32-bit words of the data, the tail zero-padded to 4 bytes. -/
def calculate_checksum : List Nat → Nat
  | [] => 0
  | [b0] => wordBE b0 0 0 0 % 4294967296
  | [b0, b1] => wordBE b0 b1 0 0 % 4294967296
  | [b0, b1, b2] => wordBE b0 b1 b2 0 % 4294967296
  | b0 :: b1 :: b2 :: b3 :: rest =>
    (wordBE b0 b1 b2 b3 + calculate_checksum rest) % 4294967296

/-- Embeds `checksum::set_checksum_adjustment`: write `value` big-endian
into bytes `8..12` of the `head` table; `none` is `ChecksumError::Truncated`. -/
def set_checksum_adjustment (head_table : List Nat) (value : Nat) : Option (List Nat) :=
  if head_table.length < 12 then none
  else some (head_table.take 8 ++ u32BEBytes value ++ head_table.drop 12)

/-- Embeds `checksum::calculate_font_checksum_adjustment`:
`0xB1B0AFBA.wrapping_sub(calculate_checksum font)`. -/
def calculate_font_checksum_adjustment (font : List Nat) : Nat :=
  (0xB1B0AFBA + 4294967296 - calculate_checksum font) % 4294967296

/-! ## ttf_header.rs -/

/-- An OpenType table record (`ttf_header::TableRecord`). -/
structure TableRecord where
  tag : FourCC
  checksum : Nat
  offset : Nat
  length : Nat
deriving DecidableEq

instance : Inhabited TableRecord := ⟨⟨default, 0, 0, 0⟩⟩

/-- Embeds `TableRecord::write_to_buf` (16 bytes). -/
def TableRecord.writeBytes (r : TableRecord) : List Nat :=
  r.tag.bytes ++ u32BEBytes r.checksum ++ u32BEBytes r.offset ++ u32BEBytes r.length

/-- Embeds `ttf_header::calculate_header_size`. -/
def calculate_header_size (num_tables : Nat) : Nat := 12 + 16 * num_tables

/-- Numeric value of a tag's four bytes; for genuine bytes (< 256) the order
by `tagKey` is exactly the byte-lexicographic order used by
`sort_unstable_by_key(|table| table.tag.0)`. -/
def tagKey (t : FourCC) : Nat := wordBE t.b0 t.b1 t.b2 t.b3

/-- The sort order of `TableDirectory::new` (ascending tag bytes). -/
def recLE (a b : TableRecord) : Prop := tagKey a.tag ≤ tagKey b.tag

instance : DecidableRel recLE := fun _ _ => inferInstanceAs (Decidable (_ ≤ _))

instance : IsTotal TableRecord recLE := ⟨fun _ _ => Nat.le_total _ _⟩

instance : IsTrans TableRecord recLE := ⟨fun _ _ _ => Nat.le_trans⟩

/-- Bit length of `n` computed with explicit fuel (enough fuel for every
16-bit value is 16). -/
def bitLen : Nat → Nat → Nat
  | 0, _ => 0
  | fuel + 1, n => if n = 0 then 0 else bitLen fuel (n / 2) + 1

/-- Number of leading zero bits of a value in a 16-bit register
(`u16::leading_zeros`): 16 minus the bit length. -/
def u16LeadingZeros (n : Nat) : Nat := 16 - bitLen 16 n

/-- An OpenType table directory (`ttf_header::TableDirectory`). -/
structure TableDirectory where
  sfnt_version : FourCC
  num_tables : Nat
  search_range : Nat
  entry_selector : Nat
  range_shift : Nat
  table_records : List TableRecord

/-- Embeds `TableDirectory::new`.  The sort is `sort_unstable_by_key` on the
tag bytes (modelled by insertion sort — any sort is an admissible refinement
of an unstable sort).  `entry_selector` is `15 - num_tables.leading_zeros()`,
`search_range` is `1u16 << (entry_selector + 4)` and `range_shift` is
`(num_tables << 4) - search_range`, all with the release-profile `u16`
semantics: the shift amount is masked by 16 and values wrap at `2 ^ 16`. -/
def TableDirectory.new (sfnt_version : FourCC) (table_records : List TableRecord) :
    TableDirectory :=
  let sorted := List.insertionSort recLE table_records
  let num_tables := sorted.length
  let entry_selector := 15 - u16LeadingZeros num_tables
  let search_range := 2 ^ ((entry_selector + 4) % 16)
  let range_shift := (num_tables * 16 % 65536 + 65536 - search_range) % 65536
  ⟨sfnt_version, num_tables, search_range, entry_selector, range_shift, sorted⟩

/-- Embeds `TableDirectory::write_to_buf` as the byte list it emits. -/
def TableDirectory.writeBytes (d : TableDirectory) : List Nat :=
  d.sfnt_version.bytes ++ u16BEBytes d.num_tables ++ u16BEBytes d.search_range ++
    u16BEBytes d.entry_selector ++ u16BEBytes d.range_shift ++
    (d.table_records.map TableRecord.writeBytes).flatten

/-- Embeds `TableDirectory::find_table`.  The source uses a binary search
over the sorted records, which returns an unspecified matching index when
the tag occurs more than once; the first match is one admissible result. -/
def TableDirectory.find_table (d : TableDirectory) (table_tag : FourCC) : Option TableRecord :=
  d.table_records.find? (fun r => r.tag = table_tag)

/-! ## magic_numbers.rs -/

/-- The tag "wOF2". -/
def WOFF2_SIGNATURE : FourCC := ⟨119, 79, 70, 50⟩

/-- The tag "ttcf". -/
def TTF_COLLECTION_FLAVOR : FourCC := ⟨116, 116, 99, 102⟩

/-- The flavor `[0, 1, 0, 0]`. -/
def TTF_TRUE_TYPE_FLAVOR : FourCC := ⟨0, 1, 0, 0⟩

/-- The tag "OTTO". -/
def TTF_CFF_FLAVOR : FourCC := ⟨79, 84, 84, 79⟩

/-! ## woff2/header.rs -/

/-- Embeds `woff2::header::Woff2Header`. -/
structure Woff2Header where
  signature : FourCC
  flavor : FourCC
  length : Nat
  num_tables : Nat
  reserved : Nat
  total_sfnt_size : Nat
  total_compressed_size : Nat
  major_version : Nat
  minor_version : Nat
  meta_offset : Nat
  meta_length : Nat
  meta_orig_length : Nat
  private_offset : Nat
  private_length : Nat
deriving DecidableEq

/-- Embeds `Woff2Header::from_buf`: a 48-byte remaining-length check, then
the fixed field layout; `none` is `Woff2HeaderError::Truncated`. -/
def Woff2Header.from_buf (l : List Nat) : Option (Woff2Header × List Nat) :=
  if l.length < 48 then none
  else
    match l with
    | s0 :: s1 :: s2 :: s3 :: f0 :: f1 :: f2 :: f3 :: l0 :: l1 :: l2 :: l3 ::
      n0 :: n1 :: r0 :: r1 :: z0 :: z1 :: z2 :: z3 :: c0 :: c1 :: c2 :: c3 ::
      mj0 :: mj1 :: mn0 :: mn1 :: a0 :: a1 :: a2 :: a3 :: b0 :: b1 :: b2 :: b3 ::
      d0 :: d1 :: d2 :: d3 :: e0 :: e1 :: e2 :: e3 :: g0 :: g1 :: g2 :: g3 :: rest =>
      some (⟨⟨s0, s1, s2, s3⟩, ⟨f0, f1, f2, f3⟩, wordBE l0 l1 l2 l3,
        n0 * 256 + n1, r0 * 256 + r1, wordBE z0 z1 z2 z3, wordBE c0 c1 c2 c3,
        mj0 * 256 + mj1, mn0 * 256 + mn1, wordBE a0 a1 a2 a3, wordBE b0 b1 b2 b3,
        wordBE d0 d1 d2 d3, wordBE e0 e1 e2 e3, wordBE g0 g1 g2 g3⟩, rest)
    | _ => none

/-- Embeds `Woff2Header::is_valid_header`: only the signature is checked
(the other checks are a TODO in the source); `false` is
`Woff2HeaderError::InvalidMagicWord`. -/
def Woff2Header.is_valid_header (h : Woff2Header) : Bool :=
  h.signature = WOFF2_SIGNATURE

/-! ## woff2/table_directory.rs : parsing -/

/-- Embeds `woff2::table_directory::TableDirectoryError`. -/
inductive TableDirectoryError where
  | Truncated
  | InvalidNumeric
deriving DecidableEq

/-- Embeds `impl From<Base128Error> for TableDirectoryError`. -/
def base128ErrorToTableDirectoryError : Base128Error → TableDirectoryError
  | .Truncated => .Truncated
  | _ => .InvalidNumeric

/-- Embeds `woff2::table_directory::TableDirectoryEntry`. -/
structure TableDirectoryEntry where
  transformed : Bool
  tag : FourCC
  dest_length : Nat
  src_length : Nat
  src_offset : Nat
deriving DecidableEq

instance : Inhabited TableDirectoryEntry := ⟨⟨false, default, 0, 0, 0⟩⟩

/-- Embeds `TableDirectoryEntry::get_source_range` applied as a slice of the
decompressed table data. -/
def sliceSource (decompressed_tables : List Nat) (e : TableDirectoryEntry) : List Nat :=
  (decompressed_tables.drop e.src_offset).take e.src_length

/-- Embeds `woff2::table_directory::PartialTableDirectoryEntry`. -/
structure PartialTableDirectoryEntry where
  transformed : Bool
  tag : FourCC
  orig_length : Nat
  transform_length : Option Nat
deriving DecidableEq

def KNOWN_TABLE_TAGS : List FourCC := [
  ⟨99, 109, 97, 112⟩,  -- "cmap"
  ⟨104, 101, 97, 100⟩,  -- "head"
  ⟨104, 104, 101, 97⟩,  -- "hhea"
  ⟨104, 109, 116, 120⟩,  -- "hmtx"
  ⟨109, 97, 120, 112⟩,  -- "maxp"
  ⟨110, 97, 109, 101⟩,  -- "name"
  ⟨79, 83, 47, 50⟩,  -- "OS/2"
  ⟨112, 111, 115, 116⟩,  -- "post"
  ⟨99, 118, 116, 32⟩,  -- "cvt "
  ⟨102, 112, 103, 109⟩,  -- "fpgm"
  ⟨103, 108, 121, 102⟩,  -- "glyf"
  ⟨108, 111, 99, 97⟩,  -- "loca"
  ⟨112, 114, 101, 112⟩,  -- "prep"
  ⟨67, 70, 70, 32⟩,  -- "CFF "
  ⟨86, 79, 82, 71⟩,  -- "VORG"
  ⟨69, 66, 68, 84⟩,  -- "EBDT"
  ⟨69, 66, 76, 67⟩,  -- "EBLC"
  ⟨103, 97, 115, 112⟩,  -- "gasp"
  ⟨104, 100, 109, 120⟩,  -- "hdmx"
  ⟨107, 101, 114, 110⟩,  -- "kern"
  ⟨76, 84, 83, 72⟩,  -- "LTSH"
  ⟨80, 67, 76, 84⟩,  -- "PCLT"
  ⟨86, 68, 77, 88⟩,  -- "VDMX"
  ⟨118, 104, 101, 97⟩,  -- "vhea"
  ⟨118, 109, 116, 120⟩,  -- "vmtx"
  ⟨66, 65, 83, 69⟩,  -- "BASE"
  ⟨71, 68, 69, 70⟩,  -- "GDEF"
  ⟨71, 80, 79, 83⟩,  -- "GPOS"
  ⟨71, 83, 85, 66⟩,  -- "GSUB"
  ⟨69, 66, 83, 67⟩,  -- "EBSC"
  ⟨74, 83, 84, 70⟩,  -- "JSTF"
  ⟨77, 65, 84, 72⟩,  -- "MATH"
  ⟨67, 66, 68, 84⟩,  -- "CBDT"
  ⟨67, 66, 76, 67⟩,  -- "CBLC"
  ⟨67, 79, 76, 82⟩,  -- "COLR"
  ⟨67, 80, 65, 76⟩,  -- "CPAL"
  ⟨83, 86, 71, 32⟩,  -- "SVG "
  ⟨115, 98, 105, 120⟩,  -- "sbix"
  ⟨97, 99, 110, 116⟩,  -- "acnt"
  ⟨97, 118, 97, 114⟩,  -- "avar"
  ⟨98, 100, 97, 116⟩,  -- "bdat"
  ⟨98, 108, 111, 99⟩,  -- "bloc"
  ⟨98, 115, 108, 110⟩,  -- "bsln"
  ⟨99, 118, 97, 114⟩,  -- "cvar"
  ⟨102, 100, 115, 99⟩,  -- "fdsc"
  ⟨102, 101, 97, 116⟩,  -- "feat"
  ⟨102, 109, 116, 120⟩,  -- "fmtx"
  ⟨102, 118, 97, 114⟩,  -- "fvar"
  ⟨103, 118, 97, 114⟩,  -- "gvar"
  ⟨104, 115, 116, 121⟩,  -- "hsty"
  ⟨106, 117, 115, 116⟩,  -- "just"
  ⟨108, 99, 97, 114⟩,  -- "lcar"
  ⟨109, 111, 114, 116⟩,  -- "mort"
  ⟨109, 111, 114, 120⟩,  -- "morx"
  ⟨111, 112, 98, 100⟩,  -- "opbd"
  ⟨112, 114, 111, 112⟩,  -- "prop"
  ⟨116, 114, 97, 107⟩,  -- "trak"
  ⟨90, 97, 112, 102⟩,  -- "Zapf"
  ⟨83, 105, 108, 102⟩,  -- "Silf"
  ⟨71, 108, 97, 116⟩,  -- "Glat"
  ⟨71, 108, 111, 99⟩,  -- "Gloc"
  ⟨70, 101, 97, 116⟩,  -- "Feat"
  ⟨83, 105, 108, 108⟩  -- "Sill"
]

/-- The tag "glyf". -/
def GLYF_TAG : FourCC := ⟨103, 108, 121, 102⟩

/-- The tag "loca". -/
def LOCA_TAG : FourCC := ⟨108, 111, 99, 97⟩

/-- The tag "head". -/
def HEAD_TAG : FourCC := ⟨104, 101, 97, 100⟩

/-- The tag "hmtx". -/
def HMTX_TAG : FourCC := ⟨104, 109, 116, 120⟩

/-- The tail of `PartialTableDirectoryEntry::from_buf` once the flag byte
has been split and the tag resolved: read `orig_length`, decide the null
transform, optionally read `transform_length`. -/
def partialEntryTail (preprocessing_transformation_version : Nat) (tag : FourCC)
    (r2 : List Nat) : Except TableDirectoryError (PartialTableDirectoryEntry × List Nat) :=
  match try_get_base_128 r2 with
  | .error e => .error (base128ErrorToTableDirectoryError e)
  | .ok (orig_length, r3) =>
    let is_null_transform :=
      if tag = GLYF_TAG ∨ tag = LOCA_TAG then
        preprocessing_transformation_version = 3
      else
        preprocessing_transformation_version = 0
    if is_null_transform then
      .ok (⟨false, tag, orig_length, none⟩, r3)
    else
      match try_get_base_128 r3 with
      | .error e => .error (base128ErrorToTableDirectoryError e)
      | .ok (transform_length, r4) =>
        .ok (⟨true, tag, orig_length, some transform_length⟩, r4)

/-- Embeds `PartialTableDirectoryEntry::from_buf`.  For a flag byte
`flags < 256`, `flags & 0xC0` has the value `flags / 64 % 4 * 64`
(the source compares it against `0xC0` and `0x00`, compared here against
`3` and `0` after the shift by 6), and `flags & 0x3f` is `flags % 64`. -/
def PartialTableDirectoryEntry.from_buf (buffer : List Nat) :
    Except TableDirectoryError (PartialTableDirectoryEntry × List Nat) :=
  match try_get_u8 buffer with
  | none => .error .Truncated
  | some (flags, r1) =>
    let preprocessing_transformation_version := flags / 64 % 4
    let table_ref := flags % 64
    if table_ref = 63 then
      match try_get_four_cc r1 with
      | none => .error .Truncated
      | some (tag, r2) => partialEntryTail preprocessing_transformation_version tag r2
    else
      partialEntryTail preprocessing_transformation_version
        (KNOWN_TABLE_TAGS.getD table_ref default) r1

/-- Embeds `woff2::table_directory::Woff2TableDirectory`. -/
structure Woff2TableDirectory where
  tables : List TableDirectoryEntry
  uncompressed_length : Nat

/-- The `for _ in 0..num_tables` loop of `Woff2TableDirectory::from_buf`:
`src_offset` is the running offset accumulator. -/
def woff2TableDirectoryLoop :
    Nat → List Nat → Nat → List TableDirectoryEntry →
    Except TableDirectoryError (List TableDirectoryEntry × Nat × List Nat)
  | 0, l, src_offset, acc => .ok (acc, src_offset, l)
  | n + 1, l, src_offset, acc =>
    match PartialTableDirectoryEntry.from_buf l with
    | .error e => .error e
    | .ok (entry, rest) =>
      let src_length := entry.transform_length.getD entry.orig_length
      woff2TableDirectoryLoop n rest (src_offset + src_length)
        (acc ++ [⟨entry.transformed, entry.tag, entry.orig_length, src_length, src_offset⟩])

/-- Embeds `Woff2TableDirectory::from_buf`. -/
def Woff2TableDirectory.from_buf (buffer : List Nat) (num_tables : Nat) :
    Except TableDirectoryError (Woff2TableDirectory × List Nat) :=
  match woff2TableDirectoryLoop num_tables buffer 0 [] with
  | .error e => .error e
  | .ok (tables, src_offset, rest) => .ok (⟨tables, src_offset⟩, rest)

/-! ## glyf_decoder/x_y_triplet.rs -/

/-- Embeds `x_y_triplet::XYTriplet`. -/
structure XYTriplet where
  x_is_negative : Bool
  y_is_negative : Bool
  byte_count : Nat
  x_bits : Nat
  y_bits : Nat
  delta_x : Nat
  delta_y : Nat
deriving DecidableEq

instance : Inhabited XYTriplet := ⟨⟨false, false, 1, 0, 0, 0, 0⟩⟩

/-- Embeds `XYTriplet::dx`: `((data >> shift) & ((1 << x_bits) - 1)) + delta_x`
cast to `i16` (`& mask` is `% 2 ^ x_bits`), negated with wrapping when
`x_is_negative`. -/
def XYTriplet.dx (t : XYTriplet) (data : Nat) : Int :=
  let shift := t.byte_count * 8 - t.x_bits
  let dx := data / 2 ^ shift % 2 ^ t.x_bits + t.delta_x
  if t.x_is_negative then wrap16 (-(toSigned16 (dx % 65536))) else toSigned16 (dx % 65536)

/-- Embeds `XYTriplet::dy`, with shift `byte_count * 8 - x_bits - y_bits`. -/
def XYTriplet.dy (t : XYTriplet) (data : Nat) : Int :=
  let shift := t.byte_count * 8 - t.x_bits - t.y_bits
  let dy := data / 2 ^ shift % 2 ^ t.y_bits + t.delta_y
  if t.y_is_negative then wrap16 (-(toSigned16 (dy % 65536))) else toSigned16 (dy % 65536)

/-- Rows 0..15 of the 128-entry coordinate-triplet lookup table. -/
def lutChunk0 : List XYTriplet := [
  ⟨false, true, 1, 0, 8, 0, 0⟩,
  ⟨false, false, 1, 0, 8, 0, 0⟩,
  ⟨false, true, 1, 0, 8, 0, 256⟩,
  ⟨false, false, 1, 0, 8, 0, 256⟩,
  ⟨false, true, 1, 0, 8, 0, 512⟩,
  ⟨false, false, 1, 0, 8, 0, 512⟩,
  ⟨false, true, 1, 0, 8, 0, 768⟩,
  ⟨false, false, 1, 0, 8, 0, 768⟩,
  ⟨false, true, 1, 0, 8, 0, 1024⟩,
  ⟨false, false, 1, 0, 8, 0, 1024⟩,
  ⟨true, false, 1, 8, 0, 0, 0⟩,
  ⟨false, false, 1, 8, 0, 0, 0⟩,
  ⟨true, false, 1, 8, 0, 256, 0⟩,
  ⟨false, false, 1, 8, 0, 256, 0⟩,
  ⟨true, false, 1, 8, 0, 512, 0⟩,
  ⟨false, false, 1, 8, 0, 512, 0⟩]

/-- Rows 16..31 of the 128-entry coordinate-triplet lookup table. -/
def lutChunk1 : List XYTriplet := [
  ⟨true, false, 1, 8, 0, 768, 0⟩,
  ⟨false, false, 1, 8, 0, 768, 0⟩,
  ⟨true, false, 1, 8, 0, 1024, 0⟩,
  ⟨false, false, 1, 8, 0, 1024, 0⟩,
  ⟨true, true, 1, 4, 4, 1, 1⟩,
  ⟨false, true, 1, 4, 4, 1, 1⟩,
  ⟨true, false, 1, 4, 4, 1, 1⟩,
  ⟨false, false, 1, 4, 4, 1, 1⟩,
  ⟨true, true, 1, 4, 4, 1, 17⟩,
  ⟨false, true, 1, 4, 4, 1, 17⟩,
  ⟨true, false, 1, 4, 4, 1, 17⟩,
  ⟨false, false, 1, 4, 4, 1, 17⟩,
  ⟨true, true, 1, 4, 4, 1, 33⟩,
  ⟨false, true, 1, 4, 4, 1, 33⟩,
  ⟨true, false, 1, 4, 4, 1, 33⟩,
  ⟨false, false, 1, 4, 4, 1, 33⟩]

/-- Rows 32..47 of the 128-entry coordinate-triplet lookup table. -/
def lutChunk2 : List XYTriplet := [
  ⟨true, true, 1, 4, 4, 1, 49⟩,
  ⟨false, true, 1, 4, 4, 1, 49⟩,
  ⟨true, false, 1, 4, 4, 1, 49⟩,
  ⟨false, false, 1, 4, 4, 1, 49⟩,
  ⟨true, true, 1, 4, 4, 17, 1⟩,
  ⟨false, true, 1, 4, 4, 17, 1⟩,
  ⟨true, false, 1, 4, 4, 17, 1⟩,
  ⟨false, false, 1, 4, 4, 17, 1⟩,
  ⟨true, true, 1, 4, 4, 17, 17⟩,
  ⟨false, true, 1, 4, 4, 17, 17⟩,
  ⟨true, false, 1, 4, 4, 17, 17⟩,
  ⟨false, false, 1, 4, 4, 17, 17⟩,
  ⟨true, true, 1, 4, 4, 17, 33⟩,
  ⟨false, true, 1, 4, 4, 17, 33⟩,
  ⟨true, false, 1, 4, 4, 17, 33⟩,
  ⟨false, false, 1, 4, 4, 17, 33⟩]

/-- Rows 48..63 of the 128-entry coordinate-triplet lookup table. -/
def lutChunk3 : List XYTriplet := [
  ⟨true, true, 1, 4, 4, 17, 49⟩,
  ⟨false, true, 1, 4, 4, 17, 49⟩,
  ⟨true, false, 1, 4, 4, 17, 49⟩,
  ⟨false, false, 1, 4, 4, 17, 49⟩,
  ⟨true, true, 1, 4, 4, 33, 1⟩,
  ⟨false, true, 1, 4, 4, 33, 1⟩,
  ⟨true, false, 1, 4, 4, 33, 1⟩,
  ⟨false, false, 1, 4, 4, 33, 1⟩,
  ⟨true, true, 1, 4, 4, 33, 17⟩,
  ⟨false, true, 1, 4, 4, 33, 17⟩,
  ⟨true, false, 1, 4, 4, 33, 17⟩,
  ⟨false, false, 1, 4, 4, 33, 17⟩,
  ⟨true, true, 1, 4, 4, 33, 33⟩,
  ⟨false, true, 1, 4, 4, 33, 33⟩,
  ⟨true, false, 1, 4, 4, 33, 33⟩,
  ⟨false, false, 1, 4, 4, 33, 33⟩]

/-- Rows 64..79 of the 128-entry coordinate-triplet lookup table. -/
def lutChunk4 : List XYTriplet := [
  ⟨true, true, 1, 4, 4, 33, 49⟩,
  ⟨false, true, 1, 4, 4, 33, 49⟩,
  ⟨true, false, 1, 4, 4, 33, 49⟩,
  ⟨false, false, 1, 4, 4, 33, 49⟩,
  ⟨true, true, 1, 4, 4, 49, 1⟩,
  ⟨false, true, 1, 4, 4, 49, 1⟩,
  ⟨true, false, 1, 4, 4, 49, 1⟩,
  ⟨false, false, 1, 4, 4, 49, 1⟩,
  ⟨true, true, 1, 4, 4, 49, 17⟩,
  ⟨false, true, 1, 4, 4, 49, 17⟩,
  ⟨true, false, 1, 4, 4, 49, 17⟩,
  ⟨false, false, 1, 4, 4, 49, 17⟩,
  ⟨true, true, 1, 4, 4, 49, 33⟩,
  ⟨false, true, 1, 4, 4, 49, 33⟩,
  ⟨true, false, 1, 4, 4, 49, 33⟩,
  ⟨false, false, 1, 4, 4, 49, 33⟩]

/-- Rows 80..95 of the 128-entry coordinate-triplet lookup table. -/
def lutChunk5 : List XYTriplet := [
  ⟨true, true, 1, 4, 4, 49, 49⟩,
  ⟨false, true, 1, 4, 4, 49, 49⟩,
  ⟨true, false, 1, 4, 4, 49, 49⟩,
  ⟨false, false, 1, 4, 4, 49, 49⟩,
  ⟨true, true, 2, 8, 8, 1, 1⟩,
  ⟨false, true, 2, 8, 8, 1, 1⟩,
  ⟨true, false, 2, 8, 8, 1, 1⟩,
  ⟨false, false, 2, 8, 8, 1, 1⟩,
  ⟨true, true, 2, 8, 8, 1, 257⟩,
  ⟨false, true, 2, 8, 8, 1, 257⟩,
  ⟨true, false, 2, 8, 8, 1, 257⟩,
  ⟨false, false, 2, 8, 8, 1, 257⟩,
  ⟨true, true, 2, 8, 8, 1, 513⟩,
  ⟨false, true, 2, 8, 8, 1, 513⟩,
  ⟨true, false, 2, 8, 8, 1, 513⟩,
  ⟨false, false, 2, 8, 8, 1, 513⟩]

/-- Rows 96..111 of the 128-entry coordinate-triplet lookup table. -/
def lutChunk6 : List XYTriplet := [
  ⟨true, true, 2, 8, 8, 257, 1⟩,
  ⟨false, true, 2, 8, 8, 257, 1⟩,
  ⟨true, false, 2, 8, 8, 257, 1⟩,
  ⟨false, false, 2, 8, 8, 257, 1⟩,
  ⟨true, true, 2, 8, 8, 257, 257⟩,
  ⟨false, true, 2, 8, 8, 257, 257⟩,
  ⟨true, false, 2, 8, 8, 257, 257⟩,
  ⟨false, false, 2, 8, 8, 257, 257⟩,
  ⟨true, true, 2, 8, 8, 257, 513⟩,
  ⟨false, true, 2, 8, 8, 257, 513⟩,
  ⟨true, false, 2, 8, 8, 257, 513⟩,
  ⟨false, false, 2, 8, 8, 257, 513⟩,
  ⟨true, true, 2, 8, 8, 513, 1⟩,
  ⟨false, true, 2, 8, 8, 513, 1⟩,
  ⟨true, false, 2, 8, 8, 513, 1⟩,
  ⟨false, false, 2, 8, 8, 513, 1⟩]

/-- Rows 112..127 of the 128-entry coordinate-triplet lookup table. -/
def lutChunk7 : List XYTriplet := [
  ⟨true, true, 2, 8, 8, 513, 257⟩,
  ⟨false, true, 2, 8, 8, 513, 257⟩,
  ⟨true, false, 2, 8, 8, 513, 257⟩,
  ⟨false, false, 2, 8, 8, 513, 257⟩,
  ⟨true, true, 2, 8, 8, 513, 513⟩,
  ⟨false, true, 2, 8, 8, 513, 513⟩,
  ⟨true, false, 2, 8, 8, 513, 513⟩,
  ⟨false, false, 2, 8, 8, 513, 513⟩,
  ⟨true, true, 3, 12, 12, 0, 0⟩,
  ⟨false, true, 3, 12, 12, 0, 0⟩,
  ⟨true, false, 3, 12, 12, 0, 0⟩,
  ⟨false, false, 3, 12, 12, 0, 0⟩,
  ⟨true, true, 4, 16, 16, 0, 0⟩,
  ⟨false, true, 4, 16, 16, 0, 0⟩,
  ⟨true, false, 4, 16, 16, 0, 0⟩,
  ⟨false, false, 4, 16, 16, 0, 0⟩]

/-- Embeds `x_y_triplet::COORD_LUT`, the fixed 128-entry lookup table for
decoding transformed glyf point coordinates (assembled in chunks). -/
def COORD_LUT : List XYTriplet :=
  lutChunk0 ++ lutChunk1 ++ lutChunk2 ++ lutChunk3 ++ lutChunk4 ++ lutChunk5 ++ lutChunk6 ++ lutChunk7

/-! ## glyf_decoder/mod.rs -/

/-- Embeds `glyf_decoder::GlyfDecoderError`. -/
inductive GlyfDecoderError where
  | Truncated
  | CompositeGlyphWithoutBbox
  | ExtraData
deriving DecidableEq

/-- Embeds `glyf_decoder::bit_stream_byte_length`:
`((n >> 5) + if n % 32 != 0 then 1 else 0) << 2`. -/
def bit_stream_byte_length (bit_stream_bit_length : Nat) : Nat :=
  (bit_stream_bit_length / 32 + if bit_stream_bit_length % 32 ≠ 0 then 1 else 0) * 4

/-- Embeds `glyf_decoder::Woff2GlyfDecoder`: the seven substream cursors,
the bbox bitmap, the optional overlap bitmap, `num_glyphs`, `index_format`. -/
structure Woff2GlyfDecoder where
  num_glyphs : Nat
  n_contour_stream : List Nat
  n_points_stream : List Nat
  flag_stream : List Nat
  glyph_stream : List Nat
  composite_stream : List Nat
  bbox_bitmap : List Nat
  bbox_stream : List Nat
  instruction_stream : List Nat
  overlap_bitmap : Option (List Nat)
  index_format : Nat
deriving DecidableEq

/-- MSB-first bit `i` of a byte bitmap (`BitSlice<u8, Msb0>` indexing):
bit `7 - i % 8` of byte `i / 8`. -/
def testBitMsb (bytes : List Nat) (i : Nat) : Bool :=
  bytes.getD (i / 8) 0 / 2 ^ (7 - i % 8) % 2 = 1

/-- Embeds `Woff2GlyfDecoder::has_read_all`: the seven substreams are
exactly consumed. -/
def Woff2GlyfDecoder.has_read_all (d : Woff2GlyfDecoder) : Bool :=
  d.n_contour_stream.isEmpty && d.n_points_stream.isEmpty && d.flag_stream.isEmpty &&
    d.glyph_stream.isEmpty && d.composite_stream.isEmpty && d.bbox_stream.isEmpty &&
    d.instruction_stream.isEmpty

/-- Embeds `Woff2GlyfDecoder::new`: parse the 36-byte transformed-glyf
header, carve the substreams out of the table.  `bbox_stream_size` is the
`u32` subtraction `bbox_total - bbox_bitmap_size` (wrapping, release
profile), and `(option_flags & 0x01) == 0x01` is `option_flags % 2 = 1`. -/
def Woff2GlyfDecoder.new (transformed_glyf_table : List Nat) :
    Except GlyfDecoderError Woff2GlyfDecoder :=
  if transformed_glyf_table.length < 36 then .error .Truncated
  else
    match transformed_glyf_table with
    | _q0 :: _q1 :: o0 :: o1 :: g0 :: g1 :: i0 :: i1 ::
      a0 :: a1 :: a2 :: a3 :: p0 :: p1 :: p2 :: p3 :: f0 :: f1 :: f2 :: f3 ::
      y0 :: y1 :: y2 :: y3 :: c0 :: c1 :: c2 :: c3 :: b0 :: b1 :: b2 :: b3 ::
      s0 :: s1 :: s2 :: s3 :: _rest =>
      let option_flags := o0 * 256 + o1
      let num_glyphs := g0 * 256 + g1
      let bitmap_stream_length := bit_stream_byte_length num_glyphs
      let index_format := i0 * 256 + i1
      let n_contour_stream_size := wordBE a0 a1 a2 a3
      let n_points_stream_size := wordBE p0 p1 p2 p3
      let flag_stream_size := wordBE f0 f1 f2 f3
      let glyph_stream_size := wordBE y0 y1 y2 y3
      let composite_stream_size := wordBE c0 c1 c2 c3
      let bbox_bitmap_size := bitmap_stream_length
      let bbox_stream_size := (wordBE b0 b1 b2 b3 + 4294967296 - bbox_bitmap_size) % 4294967296
      let instruction_stream_size := wordBE s0 s1 s2 s3
      let has_overlap_bit_stream := option_flags % 2 = 1
      let overlap_simple_bit_stream_size :=
        if has_overlap_bit_stream then bit_stream_byte_length num_glyphs else 0
      let n_contour_stream_start := 36
      let n_points_stream_start := n_contour_stream_start + n_contour_stream_size
      let flag_stream_start := n_points_stream_start + n_points_stream_size
      let glyph_stream_start := flag_stream_start + flag_stream_size
      let composite_stream_start := glyph_stream_start + glyph_stream_size
      let bbox_bitmap_start := composite_stream_start + composite_stream_size
      let bbox_stream_start := bbox_bitmap_start + bbox_bitmap_size
      let instruction_stream_start := bbox_stream_start + bbox_stream_size
      let overlap_bit_stream_start := instruction_stream_start + instruction_stream_size
      let overlap_bit_stream_end := overlap_bit_stream_start + overlap_simple_bit_stream_size
      if transformed_glyf_table.length < overlap_bit_stream_end then .error .Truncated
      else
        .ok
          { num_glyphs := num_glyphs
            n_contour_stream :=
              sliceBytes transformed_glyf_table n_contour_stream_start n_points_stream_start
            n_points_stream :=
              sliceBytes transformed_glyf_table n_points_stream_start flag_stream_start
            flag_stream := sliceBytes transformed_glyf_table flag_stream_start glyph_stream_start
            glyph_stream :=
              sliceBytes transformed_glyf_table glyph_stream_start composite_stream_start
            composite_stream :=
              sliceBytes transformed_glyf_table composite_stream_start bbox_bitmap_start
            bbox_bitmap := sliceBytes transformed_glyf_table bbox_bitmap_start bbox_stream_start
            bbox_stream :=
              sliceBytes transformed_glyf_table bbox_stream_start instruction_stream_start
            instruction_stream :=
              sliceBytes transformed_glyf_table instruction_stream_start overlap_bit_stream_start
            overlap_bitmap :=
              if has_overlap_bit_stream then
                some (sliceBytes transformed_glyf_table overlap_bit_stream_start
                  (overlap_bit_stream_start + overlap_simple_bit_stream_size))
              else none
            index_format := index_format }
    | _ => .error .Truncated

/-- The mutable locals of `Woff2GlyfDecoder::parse_simple_glyph`: the stream
cursors it advances and the per-glyph accumulators it builds. -/
structure SimpleGlyphAcc where
  n_points_stream : List Nat
  flag_stream : List Nat
  glyph_stream : List Nat
  end_points_of_contours_stream : List Nat
  flags_stream : List Nat
  x_coordinates_stream : List Nat
  y_coordinates_stream : List Nat
  running_total_points : Nat
  x : Int
  y : Int
  x_min : Int
  y_min : Int
  x_max : Int
  y_max : Int
  extents_set : Bool
deriving DecidableEq

/-- One iteration of the `for _point_index in 0..number_of_points` loop of
`parse_simple_glyph`.  `overlap_simple_flag` is `0x40` or `0x00`.  The
reconstructed flag byte is a sum because its summands sit on disjoint bits
(`0x01`, `0x02`, `0x04`, `0x10`, `0x20`, `0x40`).  For a flag byte
`flags < 256`, `(flags & 0x80) == 0x00` is `flags < 128` and
`flags & 0x7f` is `flags % 128`.  The `i16` additions `x += dx`, `y += dy`
wrap (release profile). -/
def simplePointStep (overlap_simple_flag : Nat) (acc : SimpleGlyphAcc) :
    Except GlyfDecoderError SimpleGlyphAcc :=
  match try_get_u8 acc.flag_stream with
  | none => .error .Truncated
  | some (flags, fs1) =>
    let triplet := COORD_LUT.getD (flags % 128) default
    let dataStep : Except GlyfDecoderError (Nat × List Nat) :=
      match triplet.byte_count, acc.glyph_stream with
      | 1, g0 :: gs => .ok (g0, gs)
      | 2, g0 :: g1 :: gs => .ok (g0 * 256 + g1, gs)
      | 3, g0 :: g1 :: g2 :: gs => .ok (g0 * 65536 + (g1 * 256 + g2), gs)
      | 4, g0 :: g1 :: g2 :: g3 :: gs => .ok (wordBE g0 g1 g2 g3, gs)
      | _, _ => .error .Truncated
    match dataStep with
    | .error e => .error e
    | .ok (data, gs1) =>
      let dx := triplet.dx data
      let dy := triplet.dy data
      let x := wrap16 (acc.x + dx)
      let y := wrap16 (acc.y + dy)
      let (x_min, y_min, x_max, y_max, extents_set) :=
        if acc.extents_set then
          (min acc.x_min x, min acc.y_min y, max acc.x_max x, max acc.y_max y, true)
        else (x, y, x, y, true)
      let point_is_on_curve := flags < 128
      let on_curve_flag := if point_is_on_curve then 1 else 0
      let (x_short_vector_flag, x_is_same_flag, x_out) :=
        if dx = 0 then (0, 16, acc.x_coordinates_stream)
        else if 1 ≤ dx ∧ dx ≤ 255 then (2, 16, acc.x_coordinates_stream ++ [dx.toNat])
        else if -255 ≤ dx ∧ dx ≤ -1 then (2, 0, acc.x_coordinates_stream ++ [(-dx).toNat])
        else (0, 0, acc.x_coordinates_stream ++ i16BEBytes dx)
      let (y_short_vector_flag, y_is_same_flag, y_out) :=
        if dy = 0 then (0, 32, acc.y_coordinates_stream)
        else if 1 ≤ dy ∧ dy ≤ 255 then (4, 32, acc.y_coordinates_stream ++ [dy.toNat])
        else if -255 ≤ dy ∧ dy ≤ -1 then (4, 0, acc.y_coordinates_stream ++ [(-dy).toNat])
        else (0, 0, acc.y_coordinates_stream ++ i16BEBytes dy)
      .ok { acc with
        flag_stream := fs1
        glyph_stream := gs1
        flags_stream := acc.flags_stream ++
          [on_curve_flag + x_short_vector_flag + y_short_vector_flag +
            x_is_same_flag + y_is_same_flag + overlap_simple_flag]
        x_coordinates_stream := x_out
        y_coordinates_stream := y_out
        x := x, y := y
        x_min := x_min, y_min := y_min, x_max := x_max, y_max := y_max
        extents_set := extents_set }

/-- The `for _point_index in 0..number_of_points` loop. -/
def simplePointLoop (overlap_simple_flag : Nat) :
    Nat → SimpleGlyphAcc → Except GlyfDecoderError SimpleGlyphAcc
  | 0, acc => .ok acc
  | n + 1, acc =>
    match simplePointStep overlap_simple_flag acc with
    | .error e => .error e
    | .ok acc1 => simplePointLoop overlap_simple_flag n acc1

/-- The `for _contour_index in 0..number_of_contours` loop of
`parse_simple_glyph`.  `running_total_points` is a `u16`
(`+=` wraps, and `running_total_points - 1` wraps, release profile). -/
def simpleContourLoop (overlap_simple_flag : Nat) :
    Nat → SimpleGlyphAcc → Except GlyfDecoderError SimpleGlyphAcc
  | 0, acc => .ok acc
  | n + 1, acc =>
    match try_get_255_u16 acc.n_points_stream with
    | none => .error .Truncated
    | some (number_of_points, nps1) =>
      let running_total_points := (acc.running_total_points + number_of_points) % 65536
      let acc1 := { acc with
        n_points_stream := nps1
        running_total_points := running_total_points
        end_points_of_contours_stream := acc.end_points_of_contours_stream ++
          u16BEBytes ((running_total_points + 65536 - 1) % 65536) }
      match simplePointLoop overlap_simple_flag number_of_points acc1 with
      | .error e => .error e
      | .ok acc2 => simpleContourLoop overlap_simple_flag n acc2

/-- Embeds `Woff2GlyfDecoder::parse_simple_glyph`, returning the advanced
decoder and the extended output buffer. -/
def Woff2GlyfDecoder.parse_simple_glyph (d : Woff2GlyfDecoder) (number_of_contours : Int)
    (glyph_index : Nat) (output_buffer : List Nat) :
    Except GlyfDecoderError (Woff2GlyfDecoder × List Nat) :=
  let overlap_simple_flag : Nat :=
    match d.overlap_bitmap with
    | some ob => if testBitMsb ob glyph_index then 64 else 0
    | none => 0
  let acc0 : SimpleGlyphAcc :=
    { n_points_stream := d.n_points_stream
      flag_stream := d.flag_stream
      glyph_stream := d.glyph_stream
      end_points_of_contours_stream := []
      flags_stream := []
      x_coordinates_stream := []
      y_coordinates_stream := []
      running_total_points := 0
      x := 0, y := 0, x_min := 0, y_min := 0, x_max := 0, y_max := 0
      extents_set := false }
  match simpleContourLoop overlap_simple_flag number_of_contours.toNat acc0 with
  | .error e => .error e
  | .ok acc1 =>
    match try_get_255_u16 acc1.glyph_stream with
    | none => .error .Truncated
    | some (instruction_length, gs2) =>
      match try_copy_to_buf d.instruction_stream [] instruction_length with
      | none => .error .Truncated
      | some (is1, instructions_stream) =>
        let bboxStep : Except GlyfDecoderError (Int × Int × Int × Int × List Nat) :=
          if testBitMsb d.bbox_bitmap glyph_index then
            match try_get_i16 d.bbox_stream with
            | none => .error .Truncated
            | some (x_min, bs1) =>
              match try_get_i16 bs1 with
              | none => .error .Truncated
              | some (y_min, bs2) =>
                match try_get_i16 bs2 with
                | none => .error .Truncated
                | some (x_max, bs3) =>
                  match try_get_i16 bs3 with
                  | none => .error .Truncated
                  | some (y_max, bs4) => .ok (x_min, y_min, x_max, y_max, bs4)
          else .ok (acc1.x_min, acc1.y_min, acc1.x_max, acc1.y_max, d.bbox_stream)
        match bboxStep with
        | .error e => .error e
        | .ok (x_min, y_min, x_max, y_max, bs') =>
          .ok ({ d with
              n_points_stream := acc1.n_points_stream
              flag_stream := acc1.flag_stream
              glyph_stream := gs2
              bbox_stream := bs'
              instruction_stream := is1 },
            output_buffer ++ i16BEBytes number_of_contours ++ i16BEBytes x_min ++
              i16BEBytes y_min ++ i16BEBytes x_max ++ i16BEBytes y_max ++
              acc1.end_points_of_contours_stream ++ u16BEBytes instruction_length ++
              instructions_stream ++ acc1.flags_stream ++ acc1.x_coordinates_stream ++
              acc1.y_coordinates_stream)

/-- The `loop` of `Woff2GlyfDecoder::parse_composite_glyph`.  `fuel` bounds
the iteration count: every iteration consumes at least 6 bytes of the
composite stream (2 for the flag word, then at least 4 copied), so
`composite_stream.length + 1` iterations can never be reached and the
out-of-fuel arm is unreachable.  Bit `k` of `flag_word` is
`flag_word / 2 ^ k % 2`. -/
def compositeLoop :
    Nat → List Nat → List Nat → Bool →
    Except GlyfDecoderError (List Nat × List Nat × Bool)
  | 0, _, _, _ => .error .Truncated
  | fuel + 1, composite_stream, output_buffer, have_instructions =>
    match try_get_u16 composite_stream with
    | none => .error .Truncated
    | some (flag_word, cs1) =>
      let num_bytes := 4 + (if flag_word % 2 = 1 then 2 else 0) +
        (if flag_word / 8 % 2 = 1 then 2
         else if flag_word / 64 % 2 = 1 then 4
         else if flag_word / 128 % 2 = 1 then 8
         else 0)
      match try_copy_to_buf cs1 (output_buffer ++ u16BEBytes flag_word) num_bytes with
      | none => .error .Truncated
      | some (cs2, output2) =>
        let have_instructions1 :=
          if flag_word / 256 % 2 = 1 then true else have_instructions
        if flag_word / 32 % 2 = 0 then .ok (cs2, output2, have_instructions1)
        else compositeLoop fuel cs2 output2 have_instructions1

/-- The part of `parse_composite_glyph` after the bounding box has been
emitted: the component loop and the optional instruction copy. -/
def Woff2GlyfDecoder.parseCompositeTail (d : Woff2GlyfDecoder) (output_buffer : List Nat) :
    Except GlyfDecoderError (Woff2GlyfDecoder × List Nat) :=
  match compositeLoop (d.composite_stream.length + 1) d.composite_stream output_buffer false with
  | .error e => .error e
  | .ok (cs1, out1, have_instructions) =>
    if have_instructions then
      match try_get_255_u16 d.glyph_stream with
      | none => .error .Truncated
      | some (instruction_length, gs1) =>
        match try_copy_to_buf d.instruction_stream
            (out1 ++ u16BEBytes instruction_length) instruction_length with
        | none => .error .Truncated
        | some (is1, out2) =>
          .ok ({ d with
              composite_stream := cs1
              glyph_stream := gs1
              instruction_stream := is1 }, out2)
    else .ok ({ d with composite_stream := cs1 }, out1)

/-- Embeds `Woff2GlyfDecoder::parse_composite_glyph`. -/
def Woff2GlyfDecoder.parse_composite_glyph (d : Woff2GlyfDecoder) (glyph_index : Nat)
    (output_buffer : List Nat) : Except GlyfDecoderError (Woff2GlyfDecoder × List Nat) :=
  let out1 := output_buffer ++ i16BEBytes (-1)
  if testBitMsb d.bbox_bitmap glyph_index then
    match try_get_i16 d.bbox_stream with
    | none => .error .Truncated
    | some (v0, bs1) =>
      match try_get_i16 bs1 with
      | none => .error .Truncated
      | some (v1, bs2) =>
        match try_get_i16 bs2 with
        | none => .error .Truncated
        | some (v2, bs3) =>
          match try_get_i16 bs3 with
          | none => .error .Truncated
          | some (v3, bs4) =>
            Woff2GlyfDecoder.parseCompositeTail { d with bbox_stream := bs4 }
              (out1 ++ i16BEBytes v0 ++ i16BEBytes v1 ++ i16BEBytes v2 ++ i16BEBytes v3)
  else .error .CompositeGlyphWithoutBbox

/-- Embeds `Woff2GlyfDecoder::parse_next_glyph`: dispatch on the number of
contours read from the contour stream (`0` empty, positive simple, any
negative composite). -/
def Woff2GlyfDecoder.parse_next_glyph (d : Woff2GlyfDecoder) (glyph_index : Nat)
    (output_vector : List Nat) : Except GlyfDecoderError (Woff2GlyfDecoder × List Nat) :=
  match try_get_i16 d.n_contour_stream with
  | none => .error .Truncated
  | some (number_of_contours, ncs1) =>
    let d1 := { d with n_contour_stream := ncs1 }
    if number_of_contours = 0 then .ok (d1, output_vector)
    else if 0 < number_of_contours then
      d1.parse_simple_glyph number_of_contours glyph_index output_vector
    else d1.parse_composite_glyph glyph_index output_vector

/-- The `for glyph_index in 0..self.num_glyphs` loop of
`parse_all_glyphs`: records a loca entry, parses the glyph, pads the glyf
buffer to a multiple of four.  The loca entries are `u32`, or `u16` holding
`offset / 2` when `index_format == 0` (values wrap into the container). -/
def parseAllGlyphsLoop :
    Woff2GlyfDecoder → Nat → Nat → List Nat → List Nat →
    Except GlyfDecoderError (Woff2GlyfDecoder × List Nat × List Nat)
  | d, 0, _, output_glyf_table, output_loca_table => .ok (d, output_glyf_table, output_loca_table)
  | d, remaining + 1, glyph_index, output_glyf_table, output_loca_table =>
    let loca1 :=
      if 0 < d.index_format then output_loca_table ++ u32BEBytes output_glyf_table.length
      else output_loca_table ++ u16BEBytes (output_glyf_table.length / 2)
    match d.parse_next_glyph glyph_index output_glyf_table with
    | .error e => .error e
    | .ok (d1, glyf1) =>
      parseAllGlyphsLoop d1 remaining (glyph_index + 1) (pad_to_multiple_of_four glyf1) loca1

/-- Embeds `Woff2GlyfDecoder::parse_all_glyphs` (the loop, then the final
loca sentinel; for the `u16` case an odd glyf length is padded by one
byte first). -/
def Woff2GlyfDecoder.parse_all_glyphs (d : Woff2GlyfDecoder) :
    Except GlyfDecoderError (Woff2GlyfDecoder × List Nat × List Nat) :=
  match parseAllGlyphsLoop d d.num_glyphs 0 [] [] with
  | .error e => .error e
  | .ok (d1, output_glyf_table, output_loca_table) =>
    if 0 < d.index_format then
      .ok (d1, output_glyf_table, output_loca_table ++ u32BEBytes output_glyf_table.length)
    else
      let output_glyf_table1 :=
        if output_glyf_table.length % 2 = 1 then output_glyf_table ++ [0]
        else output_glyf_table
      .ok (d1, output_glyf_table1,
        output_loca_table ++ u16BEBytes (output_glyf_table1.length / 2))

/-- Embeds `glyf_decoder::decode_glyf_table`: build the decoder, parse all
glyphs, and require every substream to be exactly consumed. -/
def decode_glyf_table (glyf_table : List Nat) :
    Except GlyfDecoderError (List Nat × List Nat) :=
  match Woff2GlyfDecoder.new glyf_table with
  | .error e => .error e
  | .ok decoder =>
    match decoder.parse_all_glyphs with
    | .error e => .error e
    | .ok (decoder1, glyf, loca) =>
      if decoder1.has_read_all then .ok (glyf, loca) else .error .ExtraData

/-! ## woff2/table_directory.rs : write-out -/

/-- Embeds `woff2::table_directory::WriteTablesError`. -/
inductive WriteTablesError where
  | MissingLocaTable
  | MissingGlyfTable
  | GlyfLocaDifferentTransform
  | TruncatedHeadTable
  | Unsupported (feature : String)
  | GlyfDecoderError (e : GlyfDecoderError)
deriving DecidableEq

/-- Embeds `table_directory::push_simple_table_record`. -/
def push_simple_table_record (table : TableDirectoryEntry) (decompressed_tables : List Nat)
    (out_buffer : List Nat) (ttf_tables : List TableRecord) : List Nat × List TableRecord :=
  let src := sliceSource decompressed_tables table
  (pad_to_multiple_of_four (out_buffer ++ src),
    ttf_tables ++ [⟨table.tag, calculate_checksum src, out_buffer.length, src.length⟩])

/-- The `while let Some(&table) = tables_iter.next()` loop of
`Woff2TableDirectory::write_to_buf`, with the explicit `loca` lookahead of
the `glyf` arm.  In the `head` arm the record length and checksum are those
of the copied table bytes after the checksum-adjustment field has been
zeroed (`set_checksum_adjustment(head_table, 0)`). -/
def writeTablesLoop :
    List TableDirectoryEntry → List Nat → List Nat → List TableRecord →
    Except WriteTablesError (List Nat × List TableRecord)
  | [], out_buffer, _, ttf_tables => .ok (out_buffer, ttf_tables)
  | table :: rest, out_buffer, decompressed_tables, ttf_tables =>
    if table.tag = GLYF_TAG then
      match rest with
      | [] => .error .MissingLocaTable
      | next_table :: rest2 =>
        if next_table.tag ≠ LOCA_TAG then .error .MissingLocaTable
        else if next_table.transformed ≠ table.transformed then
          .error .GlyfLocaDifferentTransform
        else if table.transformed then
          match decode_glyf_table (sliceSource decompressed_tables table) with
          | .error e => .error (.GlyfDecoderError e)
          | .ok (glyf, loca) =>
            let ttf_tables1 := ttf_tables ++
              [⟨table.tag, calculate_checksum glyf, out_buffer.length, glyf.length⟩]
            let out_buffer1 := pad_to_multiple_of_four (out_buffer ++ glyf)
            let ttf_tables2 := ttf_tables1 ++
              [⟨next_table.tag, calculate_checksum loca, out_buffer1.length, loca.length⟩]
            let out_buffer2 := pad_to_multiple_of_four (out_buffer1 ++ loca)
            writeTablesLoop rest2 out_buffer2 decompressed_tables ttf_tables2
        else
          let (out_buffer1, ttf_tables1) :=
            push_simple_table_record table decompressed_tables out_buffer ttf_tables
          let (out_buffer2, ttf_tables2) :=
            push_simple_table_record next_table decompressed_tables out_buffer1 ttf_tables1
          writeTablesLoop rest2 out_buffer2 decompressed_tables ttf_tables2
    else if table.tag = LOCA_TAG then .error .MissingGlyfTable
    else if table.tag = HEAD_TAG then
      let src := sliceSource decompressed_tables table
      match set_checksum_adjustment src 0 with
      | none => .error .TruncatedHeadTable
      | some head_table =>
        let ttf_tables1 := ttf_tables ++
          [⟨table.tag, calculate_checksum head_table, out_buffer.length, head_table.length⟩]
        writeTablesLoop rest (pad_to_multiple_of_four (out_buffer ++ head_table))
          decompressed_tables ttf_tables1
    else if table.tag = HMTX_TAG ∧ table.transformed then
      .error (.Unsupported "transformed hmtx table")
    else
      let (out_buffer1, ttf_tables1) :=
        push_simple_table_record table decompressed_tables out_buffer ttf_tables
      writeTablesLoop rest out_buffer1 decompressed_tables ttf_tables1

/-- Embeds `Woff2TableDirectory::write_to_buf` (the caller guarantees the
asserted `out_buffer.len() & 3 == 0`). -/
def Woff2TableDirectory.write_to_buf (d : Woff2TableDirectory) (out_buffer : List Nat)
    (decompressed_tables : List Nat) : Except WriteTablesError (List Nat × List TableRecord) :=
  writeTablesLoop d.tables out_buffer decompressed_tables []

/-! ## woff2/collection_directory.rs -/

/-- Embeds `collection_directory::CollectionHeaderError`. -/
inductive CollectionHeaderError where
  | InvalidCollectionVersion
  | Truncated
  | NoTables
  | InvalidTableIndex
deriving DecidableEq

/-- Embeds `collection_directory::CollectionHeaderVersion`. -/
inductive CollectionHeaderVersion where
  | V1
  | V2
deriving DecidableEq

/-- Embeds `TryFrom<u32> for CollectionHeaderVersion`
(`V1 = 0x0001_0000`, `V2 = 0x0002_0000`). -/
def collectionHeaderVersionOfU32 (value : Nat) :
    Except CollectionHeaderError CollectionHeaderVersion :=
  if value = 0x00010000 then .ok .V1
  else if value = 0x00020000 then .ok .V2
  else .error .InvalidCollectionVersion

/-- Embeds `collection_directory::CollectionFontEntry`. -/
structure CollectionFontEntry where
  flavor : FourCC
  table_indices : List Nat
deriving DecidableEq

/-- Embeds `collection_directory::CollectionHeader`. -/
structure CollectionHeader where
  version : CollectionHeaderVersion
  fonts : List CollectionFontEntry
deriving DecidableEq

/-- The `(0..num_tables).map(...)` loop reading one font's table indices;
each index must be below `total_num_tables`. -/
def collectionIndicesLoop (total_num_tables : Nat) :
    Nat → List Nat → List Nat → Except CollectionHeaderError (List Nat × List Nat)
  | 0, l, acc => .ok (acc, l)
  | n + 1, l, acc =>
    match try_get_255_u16 l with
    | none => .error .Truncated
    | some (table_idx, rest) =>
      if total_num_tables ≤ table_idx then .error .InvalidTableIndex
      else collectionIndicesLoop total_num_tables n rest (acc ++ [table_idx])

/-- The `(0..num_fonts).map(...)` loop of `CollectionHeader::from_buf`. -/
def collectionFontsLoop (total_num_tables : Nat) :
    Nat → List Nat → List CollectionFontEntry →
    Except CollectionHeaderError (List CollectionFontEntry × List Nat)
  | 0, l, acc => .ok (acc, l)
  | n + 1, l, acc =>
    match try_get_255_u16 l with
    | none => .error .Truncated
    | some (num_tables, r1) =>
      if num_tables = 0 then .error .NoTables
      else
        match try_get_four_cc r1 with
        | none => .error .Truncated
        | some (flavor, r2) =>
          match collectionIndicesLoop total_num_tables num_tables r2 [] with
          | .error e => .error e
          | .ok (table_indices, r3) =>
            collectionFontsLoop total_num_tables n r3 (acc ++ [⟨flavor, table_indices⟩])

/-- Embeds `CollectionHeader::from_buf`. -/
def CollectionHeader.from_buf (buf : List Nat) (total_num_tables : Nat) :
    Except CollectionHeaderError (CollectionHeader × List Nat) :=
  match try_get_u32 buf with
  | none => .error .Truncated
  | some (version_value, r1) =>
    match collectionHeaderVersionOfU32 version_value with
    | .error e => .error e
    | .ok version =>
      match try_get_255_u16 r1 with
      | none => .error .Truncated
      | some (num_fonts, r2) =>
        match collectionFontsLoop total_num_tables num_fonts r2 [] with
        | .error e => .error e
        | .ok (fonts, r3) => .ok (⟨version, fonts⟩, r3)

/-- Embeds `CollectionFontEntry::calculate_directory_size`
(12 bytes of directory header plus 16 per record). -/
def CollectionFontEntry.calculate_directory_size (f : CollectionFontEntry) : Nat :=
  12 + f.table_indices.length * 16

/-- Embeds `CollectionHeader::calculate_header_size`. -/
def CollectionHeader.calculate_header_size (c : CollectionHeader) : Nat :=
  12 + (c.fonts.map (fun font => 4 + font.calculate_directory_size)).sum

/-- The per-font running table-directory offsets written by
`CollectionHeader::write_to_buf`. -/
def collectionOffsetsBytes : List CollectionFontEntry → Nat → List Nat
  | [], _ => []
  | font :: rest, table_directory_offset =>
    u32BEBytes table_directory_offset ++
      collectionOffsetsBytes rest (table_directory_offset + font.calculate_directory_size)

/-- Embeds `CollectionHeader::write_to_buf` as the byte list it emits:
the `ttcf` tag, always version 1 (`0x00010000`), `numFonts`, the per-font
directory offsets, then each font's sorted `TableDirectory`. -/
def CollectionHeader.writeBytes (c : CollectionHeader) (tables : List TableRecord) : List Nat :=
  TTF_COLLECTION_FLAVOR.bytes ++ u32BEBytes 0x00010000 ++ u32BEBytes c.fonts.length ++
    collectionOffsetsBytes c.fonts (12 + c.fonts.length * 4) ++
    (c.fonts.map (fun font =>
      (TableDirectory.new font.flavor
        (font.table_indices.map (fun idx => tables.getD idx default))).writeBytes)).flatten

/-! ## decode.rs -/

/-- Embeds `decode::DecodeError`. -/
inductive DecodeError where
  | Invalid (reason : String)
  | Unsupported (feature : String)
deriving DecidableEq

/-- Display string of `Woff2HeaderError` (the `thiserror` messages). -/
def woff2HeaderTruncatedMessage : String := "Truncated header"

/-- Display strings of `TableDirectoryError`. -/
def TableDirectoryError.message : TableDirectoryError → String
  | .Truncated => "Table Directory truncated"
  | .InvalidNumeric => "Invalid numeric value"

/-- Display strings of `CollectionHeaderError`. -/
def CollectionHeaderError.message : CollectionHeaderError → String
  | .InvalidCollectionVersion => "Invalid collection header version"
  | .Truncated => "Truncated collection header"
  | .NoTables => "No tables in font"
  | .InvalidTableIndex => "Invalid table index"

/-- Display strings of `GlyfDecoderError`. -/
def GlyfDecoderError.message : GlyfDecoderError → String
  | .Truncated => "Stream truncated"
  | .CompositeGlyphWithoutBbox => "Composite glyph without bbox"
  | .ExtraData => "Extra Data"

/-- Display strings of `WriteTablesError` (the `GlyfDecoderError` arm is
`#[error(transparent)]`). -/
def WriteTablesError.message : WriteTablesError → String
  | .MissingLocaTable => "glyf table not followed by loca table"
  | .MissingGlyfTable => "loca table not preceded by glyf table"
  | .GlyfLocaDifferentTransform => "glyf table and loca table have different transformations"
  | .TruncatedHeadTable => "Truncated `head` table"
  | .Unsupported feature => "Unsupported feature: " ++ feature
  | .GlyfDecoderError e => e.message

/-- Embeds `impl From<WriteTablesError> for DecodeError`:
`Unsupported` stays `Unsupported`, everything else becomes `Invalid`
carrying the display string. -/
def writeTablesErrorToDecodeError : WriteTablesError → DecodeError
  | .Unsupported feature => .Unsupported feature
  | e => .Invalid e.message

/-- The key order used in `decode.rs` to sort each collection font's table
indices: `sort_unstable_by_key(|&idx| ttf_tables[idx as usize].tag.0)`. -/
def idxLE (tables : List TableRecord) (a b : Nat) : Prop :=
  tagKey (tables.getD a default).tag ≤ tagKey (tables.getD b default).tag

instance (tables : List TableRecord) : DecidableRel (idxLE tables) :=
  fun _ _ => inferInstanceAs (Decidable (_ ≤ _))

/-- The result of a successful conversion, keeping the intermediate table
records, the header size and the collection flag visible so that claims
about the written tables can be stated. -/
structure ConvertResult where
  output : List Nat
  records : List TableRecord
  header_end : Nat
  is_collection : Bool
deriving DecidableEq

/-- Embeds `decode::convert_woff2_to_ttf`, parameterised by the Brotli
oracle `brotli : List Nat → Option (List Nat × Nat)` which returns the
decompressed bytes and the number of input bytes consumed
(`stream_start_remaining - input_buffer.remaining()`); `none` stands for a
`BrotliDecompress` error (an `io::Error`, whose display string is not one
of the fixed messages of this crate).  The slice
`out_buffer[..header_end]` that the header is written into is modelled by
concatenation: the header bytes have exactly length `header_end`
(`calculate_header_size`, proved separately), and the final checksum patch
rewrites the `head` slice through `set_checksum_adjustment`. -/
def convertAux (brotli : List Nat → Option (List Nat × Nat)) (input_buffer : List Nat) :
    Except DecodeError ConvertResult :=
  match Woff2Header.from_buf input_buffer with
  | none => .error (.Invalid woff2HeaderTruncatedMessage)
  | some (header, r1) =>
    if ¬header.is_valid_header then .error (.Invalid "Invalid magic word")
    else if ¬(header.flavor = TTF_COLLECTION_FLAVOR ∨ header.flavor = TTF_CFF_FLAVOR ∨
        header.flavor = TTF_TRUE_TYPE_FLAVOR) then
      .error (.Invalid "Invalid font flavor")
    else
      match Woff2TableDirectory.from_buf r1 header.num_tables with
      | .error e => .error (.Invalid e.message)
      | .ok (table_directory, r2) =>
        let collectionStep : Except DecodeError (Option CollectionHeader × List Nat) :=
          if header.flavor = TTF_COLLECTION_FLAVOR then
            match CollectionHeader.from_buf r2 header.num_tables with
            | .error e => .error (.Invalid e.message)
            | .ok (collection_header, r3) => .ok (some collection_header, r3)
          else .ok (none, r2)
        match collectionStep with
        | .error e => .error e
        | .ok (collection_header, r3) =>
          match brotli r3 with
          | none => .error (.Invalid "Brotli decompression error")
          | some (decompressed_tables, compressed_size) =>
            if compressed_size ≠ header.total_compressed_size + 1 then
              .error (.Invalid "Compressed stream size does not match header")
            else
              let header_end :=
                match collection_header with
                | some collection_header => collection_header.calculate_header_size
                | none => calculate_header_size table_directory.tables.length
              let out_buffer := List.replicate header_end 0
              match table_directory.write_to_buf out_buffer decompressed_tables with
              | .error (.Unsupported feature) => .error (.Unsupported feature)
              | .error e => .error (.Invalid e.message)
              | .ok (out_buffer1, ttf_tables) =>
                match collection_header with
                | some collection_header =>
                  let sorted_collection : CollectionHeader :=
                    ⟨collection_header.version,
                      collection_header.fonts.map (fun font =>
                        ⟨font.flavor,
                          List.insertionSort (idxLE ttf_tables) font.table_indices⟩)⟩
                  let header_buffer := sorted_collection.writeBytes ttf_tables
                  .ok ⟨header_buffer ++ out_buffer1.drop header_end, ttf_tables,
                    header_end, true⟩
                | none =>
                  let ttf_header := TableDirectory.new header.flavor ttf_tables
                  let header_buffer := ttf_header.writeBytes
                  let out_buffer2 := header_buffer ++ out_buffer1.drop header_end
                  match ttf_header.find_table HEAD_TAG with
                  | none => .error (.Invalid "Missing `head` table")
                  | some head_table_record =>
                    let checksum_adjustment := calculate_font_checksum_adjustment out_buffer2
                    let head_table :=
                      (out_buffer2.drop head_table_record.offset).take head_table_record.length
                    match set_checksum_adjustment head_table checksum_adjustment with
                    | none => .error (.Invalid "Truncated `head` table")
                    | some patched =>
                      .ok ⟨out_buffer2.take head_table_record.offset ++ patched ++
                          out_buffer2.drop (head_table_record.offset + head_table_record.length),
                        ttf_tables, header_end, false⟩

/-- Embeds the public `decode::convert_woff2_to_ttf`, returning the output
byte buffer. -/
def convert_woff2_to_ttf (brotli : List Nat → Option (List Nat × Nat))
    (input_buffer : List Nat) : Except DecodeError (List Nat) :=
  (convertAux brotli input_buffer).map ConvertResult.output

/-- Embeds `decode::is_woff2`. -/
def is_woff2 (input_buffer : List Nat) : Bool :=
  WOFF2_SIGNATURE.bytes.isPrefixOf input_buffer

/-! ## Verification: checksum lemmas -/

/-- The checksum always fits in a `u32`. -/
theorem calculate_checksum_lt : ∀ l : List Nat, calculate_checksum l < 4294967296
  | [] => by simp [calculate_checksum]
  | [_] => Nat.mod_lt _ (by decide)
  | [_, _] => Nat.mod_lt _ (by decide)
  | [_, _, _] => Nat.mod_lt _ (by decide)
  | _ :: _ :: _ :: _ :: _ => Nat.mod_lt _ (by decide)

/-- Checksums add (mod `2 ^ 32`) across a word-aligned split. -/
theorem calculate_checksum_append : ∀ (u v : List Nat), u.length % 4 = 0 →
    calculate_checksum (u ++ v) = (calculate_checksum u + calculate_checksum v) % 4294967296
  | [], v, _ => by
    simp [calculate_checksum, Nat.mod_eq_of_lt (calculate_checksum_lt v)]
  | [_], _, h => by simp at h
  | [_, _], _, h => by simp at h
  | [_, _, _], _, h => by simp at h
  | b0 :: b1 :: b2 :: b3 :: rest, v, h => by
    have ih := calculate_checksum_append rest v (by simp at h; omega)
    show (wordBE b0 b1 b2 b3 + calculate_checksum (rest ++ v)) % 4294967296 = _
    rw [ih]
    show _ = ((wordBE b0 b1 b2 b3 + calculate_checksum rest) % 4294967296 +
      calculate_checksum v) % 4294967296
    omega

/-- A run of zero bytes has checksum zero. -/
theorem calculate_checksum_replicate_zero : ∀ k, calculate_checksum (List.replicate k 0) = 0
  | 0 => rfl
  | 1 => rfl
  | 2 => rfl
  | 3 => rfl
  | k + 4 => by
    show calculate_checksum (0 :: 0 :: 0 :: 0 :: List.replicate k 0) = 0
    simp [calculate_checksum, calculate_checksum_replicate_zero k, wordBE]

/-- Appending any run of zero bytes leaves the checksum unchanged. -/
theorem calculate_checksum_append_zeros :
    ∀ (b : List Nat) (k : Nat),
      calculate_checksum (b ++ List.replicate k 0) = calculate_checksum b
  | [], k => by simp [calculate_checksum_replicate_zero k, calculate_checksum]
  | b0 :: b1 :: b2 :: b3 :: rest, k => by
    show calculate_checksum (b0 :: b1 :: b2 :: b3 :: (rest ++ List.replicate k 0)) = _
    simp [calculate_checksum, calculate_checksum_append_zeros rest k]
  | [b0], 0 => by simp
  | [b0], 1 => rfl
  | [b0], 2 => rfl
  | [b0], k + 3 => by
    show calculate_checksum (b0 :: 0 :: 0 :: 0 :: List.replicate k 0) = _
    simp [calculate_checksum, calculate_checksum_replicate_zero k, wordBE]
  | [b0, b1], 0 => by simp
  | [b0, b1], 1 => rfl
  | [b0, b1], k + 2 => by
    show calculate_checksum (b0 :: b1 :: 0 :: 0 :: List.replicate k 0) = _
    simp [calculate_checksum, calculate_checksum_replicate_zero k, wordBE]
  | [b0, b1, b2], 0 => by simp
  | [b0, b1, b2], k + 1 => by
    show calculate_checksum (b0 :: b1 :: b2 :: 0 :: List.replicate k 0) = _
    simp [calculate_checksum, calculate_checksum_replicate_zero k, wordBE]

/-- C9: for every byte slice `b` and every suffix of zero bytes `z` that
extends `b` to a length that is a multiple of 4, `calculate_checksum`
of `b ++ z` equals `calculate_checksum b`. -/
theorem spec_c9_checksum_zero_pad (b z : List Nat) (hz : ∀ x ∈ z, x = 0)
    (_hlen : (b.length + z.length) % 4 = 0) :
    calculate_checksum (b ++ z) = calculate_checksum b := by
  have hrep : z = List.replicate z.length 0 := List.eq_replicate_iff.mpr ⟨rfl, hz⟩
  rw [hrep]
  exact calculate_checksum_append_zeros b z.length

/-- Witness for C9 at `b = [1, 2]`, `z = [0, 0]`. -/
theorem spec_c9_checksum_zero_pad_witness :
    calculate_checksum ([1, 2] ++ [0, 0]) = calculate_checksum [1, 2] :=
  spec_c9_checksum_zero_pad [1, 2] [0, 0] (by decide) (by decide)

/-! ## Verification: C6, the 255UInt16 decoder -/

/-- C6: `try_get_255_u16` decodes a first byte of 253 as the next
big-endian `u16`, 254 as the next `u8` plus 506, 255 as the next `u8` plus
253, and any other first byte as itself; the three fixture encodings of
506 all decode to 506; and it fails (with the single `Truncated` cause,
modelled by `none`) exactly on insufficient input. -/
theorem spec_c6_255_u16 :
    (∀ hi lo rest, try_get_255_u16 (253 :: hi :: lo :: rest) = some (hi * 256 + lo, rest)) ∧
    (∀ b rest, try_get_255_u16 (254 :: b :: rest) = some (b + 506, rest)) ∧
    (∀ b rest, try_get_255_u16 (255 :: b :: rest) = some (b + 253, rest)) ∧
    (∀ b rest, b < 253 → try_get_255_u16 (b :: rest) = some (b, rest)) ∧
    (try_get_255_u16 [255, 253] = some (506, []) ∧
      try_get_255_u16 [254, 0] = some (506, []) ∧
      try_get_255_u16 [253, 1, 250] = some (506, [])) ∧
    (∀ l, try_get_255_u16 l = none ↔
      l = [] ∨ (∃ b, l = [b] ∧ (b = 253 ∨ b = 254 ∨ b = 255)) ∨
        (∃ b, l = [253, b])) := by
  refine ⟨?_, ?_, ?_, ?_, ⟨by decide, by decide, by decide⟩, ?_⟩
  · intro hi lo rest
    simp [try_get_255_u16, try_get_u16]
  · intro b rest
    simp [try_get_255_u16, try_get_u8]
  · intro b rest
    simp [try_get_255_u16, try_get_u8]
  · intro b rest hb
    have h253 : b ≠ 253 := by omega
    have h254 : b ≠ 254 := by omega
    have h255 : b ≠ 255 := by omega
    simp [try_get_255_u16, h253, h254, h255]
  · intro l
    match l with
    | [] => simp [try_get_255_u16]
    | [a] =>
      by_cases h253 : a = 253
      · subst h253; simp [try_get_255_u16, try_get_u16]
      · by_cases h254 : a = 254
        · subst h254; simp [try_get_255_u16, try_get_u8]
        · by_cases h255 : a = 255
          · subst h255; simp [try_get_255_u16, try_get_u8]
          · simp [try_get_255_u16, h253, h254, h255]
    | a :: b :: rest =>
      by_cases h253 : a = 253
      · subst h253
        match rest with
        | [] => simp [try_get_255_u16, try_get_u16]
        | c :: rest' => simp [try_get_255_u16, try_get_u16]
      · by_cases h254 : a = 254
        · subst h254; simp [try_get_255_u16, try_get_u8]
        · by_cases h255 : a = 255
          · subst h255; simp [try_get_255_u16, try_get_u8]
          · simp [try_get_255_u16, h253, h254, h255]

/-- Witness for C6: the plain-byte case at `b = 7`. -/
theorem spec_c6_255_u16_witness : try_get_255_u16 [7, 1] = some (7, [1]) :=
  spec_c6_255_u16.2.2.2.1 7 [1] (by decide)

/-! ## Verification: C3, table-directory entry classification -/

/-- Bit arithmetic bridge: for a byte, `flags & 0xC0` compares to `0xC0`
and to `0x00` exactly as the two top bits `flags / 64 % 4` compare to `3`
and `0`. -/
theorem land192_bridge :
    ∀ b, b < 256 → ((b &&& 192 = 192 ↔ b / 64 % 4 = 3) ∧ (b &&& 192 = 0 ↔ b / 64 % 4 = 0)) := by
  decide

/-- Inversion of `partialEntryTail`: classification of the null transform
by the top two flag bits and the tag, the stored `transform_length`, and
the varint read on the transformed path ending where the entry ends. -/
theorem partialEntryTail_inversion (ptv : Nat) (tag : FourCC) (r2 : List Nat)
    (entry : PartialTableDirectoryEntry) (rest : List Nat)
    (h : partialEntryTail ptv tag r2 = .ok (entry, rest)) :
    entry.tag = tag ∧
    (entry.transformed = false ↔
      (if tag = GLYF_TAG ∨ tag = LOCA_TAG then ptv = 3 else ptv = 0)) ∧
    (entry.transformed = false → entry.transform_length = none) ∧
    (entry.transformed = true →
      ∃ v l2, try_get_base_128 l2 = .ok (v, rest) ∧ entry.transform_length = some v) := by
  unfold partialEntryTail at h
  rcases hb : try_get_base_128 r2 with e | ⟨ol, r3⟩ <;> rw [hb] at h
  · exact absurd h (by simp)
  simp only [] at h
  split at h <;> rename_i htag
  · split at h <;> rename_i hptv
    · rw [Except.ok.injEq, Prod.mk.injEq] at h
      obtain ⟨he, hr⟩ := h; subst he; subst hr
      exact ⟨rfl, by simp [htag, hptv], fun _ => rfl, by simp⟩
    · rcases ht : try_get_base_128 r3 with e | ⟨tl, r4⟩ <;> rw [ht] at h
      · exact absurd h (by simp)
      rw [Except.ok.injEq, Prod.mk.injEq] at h
      obtain ⟨he, hr⟩ := h; subst he; subst hr
      exact ⟨rfl, by simp [htag, hptv], by simp, fun _ => ⟨tl, r3, ht, rfl⟩⟩
  · split at h <;> rename_i hptv
    · rw [Except.ok.injEq, Prod.mk.injEq] at h
      obtain ⟨he, hr⟩ := h; subst he; subst hr
      exact ⟨rfl, by simp [htag, hptv], fun _ => rfl, by simp⟩
    · rcases ht : try_get_base_128 r3 with e | ⟨tl, r4⟩ <;> rw [ht] at h
      · exact absurd h (by simp)
      rw [Except.ok.injEq, Prod.mk.injEq] at h
      obtain ⟨he, hr⟩ := h; subst he; subst hr
      exact ⟨rfl, by simp [htag, hptv], by simp, fun _ => ⟨tl, r3, ht, rfl⟩⟩

/-- Inversion of `PartialTableDirectoryEntry.from_buf` for a concrete flag
byte: the entry is null-transform exactly as classified from the flag
byte's top two bits and the resolved tag. -/
theorem partial_entry_inversion (flags : Nat) (l : List Nat)
    (entry : PartialTableDirectoryEntry) (rest : List Nat)
    (h : PartialTableDirectoryEntry.from_buf (flags :: l) = .ok (entry, rest)) :
    (entry.transformed = false ↔
      (if entry.tag = GLYF_TAG ∨ entry.tag = LOCA_TAG
       then flags / 64 % 4 = 3 else flags / 64 % 4 = 0)) ∧
    (entry.transformed = false → entry.transform_length = none) ∧
    (entry.transformed = true →
      ∃ v l2, try_get_base_128 l2 = .ok (v, rest) ∧ entry.transform_length = some v) := by
  unfold PartialTableDirectoryEntry.from_buf at h
  simp only [try_get_u8] at h
  split at h
  · rcases hc : try_get_four_cc l with _ | ⟨tag, r2⟩ <;> rw [hc] at h
    · exact absurd h (by simp)
    obtain ⟨htg, hcl, hnone, hsome⟩ := partialEntryTail_inversion _ _ _ _ _ h
    exact ⟨by rw [htg]; exact hcl, hnone, hsome⟩
  · obtain ⟨htg, hcl, hnone, hsome⟩ := partialEntryTail_inversion _ _ _ _ _ h
    exact ⟨by rw [htg]; exact hcl, hnone, hsome⟩

/-- Every entry produced by the table-directory loop comes from a
successful `PartialTableDirectoryEntry.from_buf` parse, with `dest_length`
the parsed `orig_length` and `src_length` the parsed `transform_length`
defaulted to `orig_length`; null-transform entries have
`src_length = dest_length`. -/
theorem woff2TableDirectoryLoop_entries :
    ∀ (n : Nat) (l : List Nat) (off : Nat) (acc : List TableDirectoryEntry)
      (tables : List TableDirectoryEntry) (off' : Nat) (rest : List Nat),
      woff2TableDirectoryLoop n l off acc = .ok (tables, off', rest) →
      ∀ e ∈ tables, e ∈ acc ∨
        ((e.transformed = false → e.src_length = e.dest_length) ∧
          ∃ (p : PartialTableDirectoryEntry) (l1 l2 : List Nat),
            PartialTableDirectoryEntry.from_buf l1 = .ok (p, l2) ∧
            e.transformed = p.transformed ∧ e.tag = p.tag ∧
            e.dest_length = p.orig_length ∧
            e.src_length = p.transform_length.getD p.orig_length)
  | 0, l, off, acc, tables, off', rest, h, e, he => by
    simp only [woff2TableDirectoryLoop, Except.ok.injEq, Prod.mk.injEq] at h
    obtain ⟨h1, _, _⟩ := h
    exact Or.inl (h1 ▸ he)
  | n + 1, l, off, acc, tables, off', rest, h, e, he => by
    rw [woff2TableDirectoryLoop] at h
    rcases hp : PartialTableDirectoryEntry.from_buf l with ep | ⟨entry, rest1⟩ <;>
      rw [hp] at h
    · exact absurd h (by simp)
    simp only [] at h
    rcases woff2TableDirectoryLoop_entries n rest1 _ _ tables off' rest h e he with
      hacc | hnew
    · rcases List.mem_append.mp hacc with hl | hr
      · exact Or.inl hl
      · right
        rcases List.mem_singleton.mp hr with rfl
        constructor
        · intro hnull
          match l, hp with
          | flags :: ltail, hp =>
            have hinv := partial_entry_inversion flags ltail entry rest1 hp
            simp only [] at hnull
            rw [hinv.2.1 hnull]
            rfl
        · exact ⟨entry, l, rest1, hp, rfl, rfl, rfl, rfl⟩
    · exact Or.inr hnew

/-- C3: a parsed table-directory entry is classified as null-transform
exactly when the tag is `glyf`/`loca` and the top two flag bits are `0b11`
(`flags & 0xC0 == 0xC0`), or the tag is any other tag and the top two flag
bits are `0b00`; when transformed, a `transform_length` base-128 varint is
read (ending where the entry's parse ends) and becomes `src_length`; when
null-transform, no varint is stored and `src_length = dest_length`
(`dest_length` is `orig_length`). -/
theorem spec_c3_entry_classification :
    (∀ flags l entry rest, flags < 256 →
      PartialTableDirectoryEntry.from_buf (flags :: l) = .ok (entry, rest) →
      (entry.transformed = false ↔
        (if entry.tag = GLYF_TAG ∨ entry.tag = LOCA_TAG
         then flags &&& 192 = 192 else flags &&& 192 = 0)) ∧
      (entry.transformed = false → entry.transform_length = none) ∧
      (entry.transformed = true →
        ∃ v l2, try_get_base_128 l2 = .ok (v, rest) ∧ entry.transform_length = some v)) ∧
    (∀ buffer n dir rest, Woff2TableDirectory.from_buf buffer n = .ok (dir, rest) →
      ∀ e ∈ dir.tables,
        (e.transformed = false → e.src_length = e.dest_length) ∧
        ∃ (p : PartialTableDirectoryEntry) (l1 l2 : List Nat),
          PartialTableDirectoryEntry.from_buf l1 = .ok (p, l2) ∧
          e.transformed = p.transformed ∧ e.tag = p.tag ∧
          e.dest_length = p.orig_length ∧
          e.src_length = p.transform_length.getD p.orig_length) := by
  constructor
  · intro flags l entry rest hflags h
    have hinv := partial_entry_inversion flags l entry rest h
    have hb := land192_bridge flags hflags
    refine ⟨?_, hinv.2.1, hinv.2.2⟩
    rw [hinv.1]
    split
    · rw [hb.1]
    · rw [hb.2]
  · intro buffer n dir rest h e he
    rw [Woff2TableDirectory.from_buf] at h
    rcases hl : woff2TableDirectoryLoop n buffer 0 [] with ep | ⟨⟨tables, off', rest1⟩⟩ <;>
      rw [hl] at h
    · exact absurd h (by simp)
    simp only [Except.ok.injEq, Prod.mk.injEq] at h
    obtain ⟨hdir, _⟩ := h
    subst hdir
    rcases woff2TableDirectoryLoop_entries n buffer 0 [] tables off' rest1 hl e he with
      habs | hgood
    · exact absurd habs (by simp)
    · exact hgood

/-- Witness for C3: a null-transform `cmap` entry with flag byte `0x00`
and a transformed `glyf` entry with flag byte `0x0A`. -/
theorem spec_c3_entry_classification_witness :
    (⟨false, ⟨99, 109, 97, 112⟩, 4, none⟩ : PartialTableDirectoryEntry).transformed = false ∧
    ((⟨false, ⟨99, 109, 97, 112⟩, 4, none⟩ : PartialTableDirectoryEntry).transform_length
      = none) := by
  have h := (spec_c3_entry_classification.1 0 [4]
    (⟨false, ⟨99, 109, 97, 112⟩, 4, none⟩ : PartialTableDirectoryEntry) []
    (by decide) (by rfl))
  exact ⟨rfl, h.2.1 rfl⟩

/-! ## Verification: C5, composite glyphs and the bbox bitmap -/

/-- Reading a big-endian `i16` from two bytes and re-emitting it
reproduces the two bytes. -/
theorem i16BEBytes_toSigned16 (b0 b1 : Nat) (h0 : b0 < 256) (h1 : b1 < 256) :
    i16BEBytes (toSigned16 (b0 * 256 + b1)) = [b0, b1] := by
  simp only [i16BEBytes, toSigned16, u16BEBytes]
  split <;> rename_i hv
  · rw [List.cons.injEq, List.cons.injEq]
    refine ⟨?_, ?_, rfl⟩ <;> omega
  · rw [List.cons.injEq, List.cons.injEq]
    refine ⟨?_, ?_, rfl⟩ <;> omega

/-- C5: for a composite glyph (the negative-contour path of
`parse_next_glyph` calls `parse_composite_glyph`), decoding fails with
`CompositeGlyphWithoutBbox` when bit `g` of the bbox bitmap (MSB-first) is
clear; when the bit is set, exactly four big-endian `i16` values (eight
bytes) are consumed from the bbox stream and emitted after the `-1`
contour count as the glyph's bounding box, and fewer than eight remaining
bbox bytes give `Truncated`. -/
theorem spec_c5_composite_bbox :
    (∀ (d : Woff2GlyfDecoder) (g : Nat) (out : List Nat),
      testBitMsb d.bbox_bitmap g = false →
      d.parse_composite_glyph g out = .error .CompositeGlyphWithoutBbox) ∧
    (∀ (d : Woff2GlyfDecoder) (g : Nat) (out : List Nat)
      (b0 b1 b2 b3 b4 b5 b6 b7 : Nat) (rest : List Nat),
      testBitMsb d.bbox_bitmap g = true →
      d.bbox_stream = b0 :: b1 :: b2 :: b3 :: b4 :: b5 :: b6 :: b7 :: rest →
      (∀ x ∈ d.bbox_stream, x < 256) →
      d.parse_composite_glyph g out =
        Woff2GlyfDecoder.parseCompositeTail { d with bbox_stream := rest }
          (out ++ [255, 255] ++ [b0, b1, b2, b3, b4, b5, b6, b7])) ∧
    (∀ (d : Woff2GlyfDecoder) (g : Nat) (out : List Nat),
      testBitMsb d.bbox_bitmap g = true →
      d.bbox_stream.length < 8 →
      d.parse_composite_glyph g out = .error .Truncated) := by
  refine ⟨?_, ?_, ?_⟩
  · intro d g out hbit
    simp [Woff2GlyfDecoder.parse_composite_glyph, hbit]
  · intro d g out b0 b1 b2 b3 b4 b5 b6 b7 rest hbit hs hlt
    have h0 : b0 < 256 := hlt _ (by rw [hs]; simp)
    have h1 : b1 < 256 := hlt _ (by rw [hs]; simp)
    have h2 : b2 < 256 := hlt _ (by rw [hs]; simp)
    have h3 : b3 < 256 := hlt _ (by rw [hs]; simp)
    have h4 : b4 < 256 := hlt _ (by rw [hs]; simp)
    have h5 : b5 < 256 := hlt _ (by rw [hs]; simp)
    have h6 : b6 < 256 := hlt _ (by rw [hs]; simp)
    have h7 : b7 < 256 := hlt _ (by rw [hs]; simp)
    simp only [Woff2GlyfDecoder.parse_composite_glyph, hbit, if_true, hs,
      try_get_i16, try_get_u16]
    rw [i16BEBytes_toSigned16 b0 b1 h0 h1, i16BEBytes_toSigned16 b2 b3 h2 h3,
      i16BEBytes_toSigned16 b4 b5 h4 h5, i16BEBytes_toSigned16 b6 b7 h6 h7]
    have hneg : i16BEBytes (-1) = [255, 255] := rfl
    rw [hneg]
    simp
  · intro d g out hbit hlen
    rcases hs : d.bbox_stream with
      _ | ⟨c0, _ | ⟨c1, _ | ⟨c2, _ | ⟨c3, _ | ⟨c4, _ | ⟨c5, _ | ⟨c6, _ | ⟨c7, t⟩⟩⟩⟩⟩⟩⟩⟩ <;>
      simp only [Woff2GlyfDecoder.parse_composite_glyph, hbit, if_true, hs,
        try_get_i16, try_get_u16]
    rw [hs] at hlen
    rw [List.length_cons, List.length_cons, List.length_cons, List.length_cons,
      List.length_cons, List.length_cons, List.length_cons, List.length_cons] at hlen
    omega

/-- A concrete decoder state for the C5 witness: one glyph, bbox bit 0 set,
eight bbox bytes. -/
def c5d : Woff2GlyfDecoder :=
  ⟨1, [], [], [], [], [], [128], [0, 1, 0, 2, 0, 3, 0, 4], [], none, 0⟩

/-- Witness for C5: the bit-set case consumes the eight bbox bytes. -/
theorem spec_c5_composite_bbox_witness :
    Woff2GlyfDecoder.parse_composite_glyph c5d 0 [] =
      Woff2GlyfDecoder.parseCompositeTail { c5d with bbox_stream := ([] : List Nat) }
        ([] ++ [255, 255] ++ [0, 1, 0, 2, 0, 3, 0, 4]) :=
  spec_c5_composite_bbox.2.1 c5d 0 [] 0 1 0 2 0 3 0 4 [] (by decide) rfl (by decide)

/-! ## Verification: C4, glyf/loca adjacency during write-out -/

/-- C4: during table write-out, a directory entry with tag `glyf` that is
last, or whose successor does not have tag `loca`, makes the write-out
fail with `MissingLocaTable` (surfaced as `Invalid`); a transformed `glyf`
immediately followed by a transformed `loca` is accepted: the glyf
transform is decoded and the two tables are emitted with their records. -/
theorem spec_c4_glyf_loca_adjacency :
    (∀ (out dec : List Nat) (acc : List TableRecord) (t : TableDirectoryEntry),
      t.tag = GLYF_TAG →
      writeTablesLoop [t] out dec acc = .error .MissingLocaTable) ∧
    (∀ (out dec : List Nat) (acc : List TableRecord) (t t2 : TableDirectoryEntry)
      (rest : List TableDirectoryEntry),
      t.tag = GLYF_TAG → t2.tag ≠ LOCA_TAG →
      writeTablesLoop (t :: t2 :: rest) out dec acc = .error .MissingLocaTable) ∧
    (∀ (out dec g l : List Nat) (t t2 : TableDirectoryEntry),
      t.tag = GLYF_TAG → t2.tag = LOCA_TAG →
      t.transformed = true → t2.transformed = true →
      decode_glyf_table (sliceSource dec t) = .ok (g, l) →
      writeTablesLoop [t, t2] out dec [] = .ok
        (pad_to_multiple_of_four (pad_to_multiple_of_four (out ++ g) ++ l),
          [⟨t.tag, calculate_checksum g, out.length, g.length⟩,
            ⟨t2.tag, calculate_checksum l, (pad_to_multiple_of_four (out ++ g)).length,
              l.length⟩])) ∧
    writeTablesErrorToDecodeError .MissingLocaTable =
      .Invalid "glyf table not followed by loca table" := by
  refine ⟨?_, ?_, ?_, rfl⟩
  · intro out dec acc t ht
    simp [writeTablesLoop, ht]
  · intro out dec acc t t2 rest ht ht2
    simp [writeTablesLoop, ht, ht2]
  · intro out dec g l t t2 ht ht2 htr htr2 hdec
    simp [writeTablesLoop, ht, ht2, htr, htr2, hdec]

/-- A transformed empty glyf table source for the C4 witness: 36 zero
header bytes describe zero glyphs with empty substreams. -/
def c4dec : List Nat := List.replicate 36 0

/-- The transformed `glyf` directory entry of the C4 witness. -/
def c4glyf : TableDirectoryEntry := ⟨true, GLYF_TAG, 0, 36, 0⟩

/-- The transformed `loca` directory entry of the C4 witness. -/
def c4loca : TableDirectoryEntry := ⟨true, LOCA_TAG, 2, 0, 36⟩

/-- Witness for C4: the accepted transformed pair on a concrete input. -/
theorem spec_c4_glyf_loca_adjacency_witness :
    writeTablesLoop [c4glyf, c4loca] [] c4dec [] = .ok
      (pad_to_multiple_of_four (pad_to_multiple_of_four (([] : List Nat) ++ []) ++ [0, 0]),
        [⟨c4glyf.tag, calculate_checksum [], List.length ([] : List Nat),
            List.length ([] : List Nat)⟩,
          ⟨c4loca.tag, calculate_checksum [0, 0],
            (pad_to_multiple_of_four (([] : List Nat) ++ [])).length,
            List.length [0, 0]⟩]) :=
  spec_c4_glyf_loca_adjacency.2.2.1 [] c4dec [] [0, 0] c4glyf c4loca rfl rfl rfl rfl (by rfl)

/-! ## Verification: C8, the SFNT table directory header fields -/

/-- Characterisation of `Nat.log2` by a power-of-two sandwich. -/
theorem log2_eq_of (k n : Nat) (h1 : 2 ^ k ≤ n) (h2 : n < 2 ^ (k + 1)) :
    Nat.log2 n = k := by
  have hone : 1 ≤ 2 ^ k := Nat.one_le_two_pow
  have hn : n ≠ 0 := by omega
  rcases Nat.lt_trichotomy (Nat.log2 n) k with hlt | heq | hgt
  · have hself := Nat.lt_log2_self (n := n)
    have hle : Nat.log2 n + 1 ≤ k := hlt
    have := Nat.pow_le_pow_right (show 1 ≤ 2 by decide) hle
    omega
  · exact heq
  · have hle : k + 1 ≤ Nat.log2 n := hgt
    have hpow := Nat.pow_le_pow_right (show 1 ≤ 2 by decide) hle
    have := Nat.log2_self_le hn
    omega

/-- The field values of `TableDirectory.new`, in terms of the input length. -/
theorem tableDirectoryNew_fields (sfnt_version : FourCC) (table_records : List TableRecord) :
    (TableDirectory.new sfnt_version table_records).table_records =
      List.insertionSort recLE table_records ∧
    (TableDirectory.new sfnt_version table_records).num_tables = table_records.length ∧
    (TableDirectory.new sfnt_version table_records).entry_selector =
      15 - u16LeadingZeros table_records.length ∧
    (TableDirectory.new sfnt_version table_records).search_range =
      2 ^ ((15 - u16LeadingZeros table_records.length + 4) % 16) ∧
    (TableDirectory.new sfnt_version table_records).range_shift =
      (table_records.length * 16 % 65536 + 65536 -
        2 ^ ((15 - u16LeadingZeros table_records.length + 4) % 16)) % 65536 := by
  have hlen : (List.insertionSort recLE table_records).length = table_records.length :=
    List.length_insertionSort recLE table_records
  refine ⟨rfl, ?_, ?_, ?_, ?_⟩
  · show (List.insertionSort recLE table_records).length = _
    exact hlen
  · show 15 - u16LeadingZeros (List.insertionSort recLE table_records).length = _
    rw [hlen]
  · show 2 ^ ((15 - u16LeadingZeros (List.insertionSort recLE table_records).length + 4) % 16)
      = _
    rw [hlen]
  · show ((List.insertionSort recLE table_records).length * 16 % 65536 + 65536 -
      2 ^ ((15 - u16LeadingZeros (List.insertionSort recLE table_records).length + 4) % 16))
        % 65536 = _
    rw [hlen]

/-- Out of fuel or at zero, the bit length is zero. -/
theorem bitLen_zero : ∀ fuel, bitLen fuel 0 = 0
  | 0 => rfl
  | _ + 1 => by rw [bitLen, if_pos rfl]

/-- With enough fuel, the bit length is `log2 + 1`. -/
theorem bitLen_eq : ∀ (fuel n : Nat), 1 ≤ n → n < 2 ^ fuel →
    bitLen fuel n = Nat.log2 n + 1
  | 0, n, h1, h2 => by simp at h2; omega
  | fuel + 1, n, h1, h2 => by
    rw [bitLen, if_neg (by omega)]
    by_cases hn : n = 1
    · subst hn
      rw [show (1 : Nat) / 2 = 0 by decide, bitLen_zero fuel]
      rw [show Nat.log2 1 = 0 by rw [Nat.log2]; norm_num]
    · have h2n : 2 ≤ n := by omega
      have hhalf : n / 2 < 2 ^ fuel := by
        rw [Nat.pow_succ] at h2
        omega
      rw [bitLen_eq fuel (n / 2) (by omega) hhalf]
      conv_rhs => rw [Nat.log2]
      simp [h2n]

/-- For values in the 16-bit range, `15 - leading_zeros` is `floor(log2)`. -/
theorem leading_zeros_log2 (n : Nat) (h1 : 1 ≤ n) (h2 : n < 65536) :
    15 - u16LeadingZeros n = Nat.log2 n := by
  rw [u16LeadingZeros, bitLen_eq 16 n h1 (by omega)]
  have hlt : Nat.log2 n < 16 := by
    rw [Nat.log2_lt (by omega)]
    omega
  omega


/-- A genuine four-byte tag (each component fits in a byte). -/
def FourCC.isByte (t : FourCC) : Prop :=
  t.b0 < 256 ∧ t.b1 < 256 ∧ t.b2 < 256 ∧ t.b3 < 256

instance (t : FourCC) : Decidable t.isByte := by
  unfold FourCC.isByte
  infer_instance

/-- Byte-lexicographic order on tags (the order of `[u8; 4]`). -/
def tagLexLe (a b : FourCC) : Prop :=
  a.b0 < b.b0 ∨ (a.b0 = b.b0 ∧ (a.b1 < b.b1 ∨ (a.b1 = b.b1 ∧
    (a.b2 < b.b2 ∨ (a.b2 = b.b2 ∧ a.b3 ≤ b.b3)))))

/-- For genuine byte tags, the numeric key order is the byte-lexicographic
order. -/
theorem tagKey_le_iff_tagLexLe (a b : FourCC) (ha : a.isByte) (hb : b.isByte) :
    tagKey a ≤ tagKey b ↔ tagLexLe a b := by
  obtain ⟨ha0, ha1, ha2, ha3⟩ := ha
  obtain ⟨hb0, hb1, hb2, hb3⟩ := hb
  unfold tagKey tagLexLe wordBE
  omega

/-- Counterexample to C8 as stated: with 4096 records the `u16`
`search_range` computation overflows (`1u16 << 16` masks the shift amount
in release builds), so `search_range` is `1`, not
`2 ^ entry_selector * 16 = 65536`. -/
theorem spec_c8_counterexample :
    ¬((TableDirectory.new TTF_TRUE_TYPE_FLAVOR
        (List.replicate 4096 (default : TableRecord))).search_range =
      2 ^ (TableDirectory.new TTF_TRUE_TYPE_FLAVOR
        (List.replicate 4096 (default : TableRecord))).entry_selector * 16) := by
  have hf := tableDirectoryNew_fields TTF_TRUE_TYPE_FLAVOR
    (List.replicate 4096 (default : TableRecord))
  rw [hf.2.2.2.1, hf.2.2.1, List.length_replicate]
  decide

/-- C8 (amended): for every non-empty list of fewer than 4096 table
records with genuine byte tags, `TableDirectory::new` produces records
sorted ascending by tag bytes (byte-lexicographic), with
`entry_selector = floor(log2 numTables)`,
`search_range = 2 ^ entry_selector * 16`, and
`range_shift = numTables * 16 - search_range`.  (With 4096 or more
records the `u16` fields cannot hold the specified values and the release
build wraps; see the counterexample.) -/
theorem spec_c8_table_directory_new (sfnt_version : FourCC)
    (table_records : List TableRecord) (hne : table_records ≠ [])
    (hlt : table_records.length < 4096)
    (htags : ∀ r ∈ table_records, r.tag.isByte) :
    List.Pairwise (fun a b => tagLexLe a.tag b.tag)
      (TableDirectory.new sfnt_version table_records).table_records ∧
    (TableDirectory.new sfnt_version table_records).num_tables = table_records.length ∧
    (TableDirectory.new sfnt_version table_records).entry_selector =
      Nat.log2 table_records.length ∧
    (TableDirectory.new sfnt_version table_records).search_range =
      2 ^ (TableDirectory.new sfnt_version table_records).entry_selector * 16 ∧
    (TableDirectory.new sfnt_version table_records).range_shift =
      table_records.length * 16 -
        (TableDirectory.new sfnt_version table_records).search_range := by
  obtain ⟨hrecs, hnum, hsel, hsr, hrs⟩ := tableDirectoryNew_fields sfnt_version table_records
  have hpos : 1 ≤ table_records.length := by
    cases table_records with
    | nil => exact absurd rfl hne
    | cons a t => simp
  have hlog : 15 - u16LeadingZeros table_records.length = Nat.log2 table_records.length :=
    leading_zeros_log2 table_records.length hpos (by omega)
  have hlog_lt : Nat.log2 table_records.length < 12 := by
    rw [Nat.log2_lt (by omega)]
    calc table_records.length < 4096 := hlt
      _ ≤ 2 ^ 12 := by norm_num
  have hself : 2 ^ Nat.log2 table_records.length ≤ table_records.length :=
    Nat.log2_self_le (by omega)
  have hmod : (Nat.log2 table_records.length + 4) % 16 = Nat.log2 table_records.length + 4 :=
    Nat.mod_eq_of_lt (by omega)
  have hsrval : (TableDirectory.new sfnt_version table_records).search_range =
      2 ^ Nat.log2 table_records.length * 16 := by
    rw [hsr, hlog, hmod, Nat.pow_add]
  refine ⟨?_, hnum, by rw [hsel, hlog], by rw [hsrval, hsel, hlog], ?_⟩
  · rw [hrecs]
    have hsorted := List.sorted_insertionSort recLE table_records
    refine List.Pairwise.imp_of_mem ?_ hsorted
    intro a b hma hmb hr
    have hba : a.tag.isByte := htags a ((List.mem_insertionSort recLE).mp hma)
    have hbb : b.tag.isByte := htags b ((List.mem_insertionSort recLE).mp hmb)
    exact (tagKey_le_iff_tagLexLe a.tag b.tag hba hbb).mp hr
  · rw [hrs, hsrval, hlog, hmod, Nat.pow_add]
    have h16 : table_records.length * 16 < 65536 := by omega
    have hsr16 : 2 ^ Nat.log2 table_records.length * 2 ^ 4 ≤ table_records.length * 16 := by
      have hmul := Nat.mul_le_mul_right 16 hself
      have hpow : (2 : Nat) ^ 4 = 16 := by norm_num
      omega
    have hmodeq : table_records.length * 16 % 65536 = table_records.length * 16 :=
      Nat.mod_eq_of_lt h16
    omega

/-- Witness for C8 at a two-record list. -/
theorem spec_c8_table_directory_new_witness :
    (TableDirectory.new TTF_TRUE_TYPE_FLAVOR
      [⟨⟨104, 101, 97, 100⟩, 0, 0, 0⟩, ⟨⟨99, 109, 97, 112⟩, 0, 0, 0⟩]).num_tables = 2 ∧
    (TableDirectory.new TTF_TRUE_TYPE_FLAVOR
      [⟨⟨104, 101, 97, 100⟩, 0, 0, 0⟩, ⟨⟨99, 109, 97, 112⟩, 0, 0, 0⟩]).search_range =
      2 ^ (TableDirectory.new TTF_TRUE_TYPE_FLAVOR
        [⟨⟨104, 101, 97, 100⟩, 0, 0, 0⟩, ⟨⟨99, 109, 97, 112⟩, 0, 0, 0⟩]).entry_selector * 16 := by
  have h := spec_c8_table_directory_new TTF_TRUE_TYPE_FLAVOR
    [⟨⟨104, 101, 97, 100⟩, 0, 0, 0⟩, ⟨⟨99, 109, 97, 112⟩, 0, 0, 0⟩]
    (by decide) (by decide) (by decide)
  exact ⟨h.2.1, h.2.2.2.1⟩

/-! ## Verification: C7, the base-128 varint decoder -/

/-- Modelled from the spec: the canonical UIntBase128 encoding of a `u32`
value (most-significant 7-bit group first, high bit set on all but the
last byte, no leading zero bytes).  The repository contains only the
decoder; this encoder is the spec's notion of a valid encoding. -/
def encodeBase128 (v : Nat) : List Nat :=
  if v < 128 then [v]
  else if v < 16384 then [v / 128 + 128, v % 128]
  else if v < 2097152 then [v / 16384 + 128, v / 128 % 128 + 128, v % 128]
  else if v < 268435456 then
    [v / 2097152 + 128, v / 16384 % 128 + 128, v / 128 % 128 + 128, v % 128]
  else
    [v / 268435456 + 128, v / 2097152 % 128 + 128, v / 16384 % 128 + 128,
      v / 128 % 128 + 128, v % 128]

/-- C7: `try_get_base_128` decodes every canonical encoding to the
original `u32`; a first byte of `0x80` gives `LeadingZero`; four
continuation bytes whose accumulated value has its top seven bits
non-zero give `Overflow` on the fifth byte; five continuation bytes
without overflow give `MoreThan5Bytes`; and a short all-continuation
input gives `Truncated`. -/
theorem spec_c7_base_128 :
    (∀ v rest, v < 4294967296 →
      try_get_base_128 (encodeBase128 v ++ rest) = .ok (v, rest)) ∧
    (∀ l, try_get_base_128 (128 :: l) = .error .LeadingZero) ∧
    (∀ b0 b1 b2 b3 b4 rest, 128 ≤ b0 → b0 ≠ 128 → 128 ≤ b1 → 128 ≤ b2 → 128 ≤ b3 →
      2 ^ 25 ≤ ((b0 % 128 * 128 + b1 % 128) * 128 + b2 % 128) * 128 + b3 % 128 →
      try_get_base_128 (b0 :: b1 :: b2 :: b3 :: b4 :: rest) = .error .Overflow) ∧
    (∀ b0 b1 b2 b3 b4 rest, 128 ≤ b0 → b0 ≠ 128 → 128 ≤ b1 → 128 ≤ b2 → 128 ≤ b3 →
      128 ≤ b4 →
      ((b0 % 128 * 128 + b1 % 128) * 128 + b2 % 128) * 128 + b3 % 128 < 2 ^ 25 →
      try_get_base_128 (b0 :: b1 :: b2 :: b3 :: b4 :: rest) = .error .MoreThan5Bytes) ∧
    (∀ l, l.length ≤ 4 → (∀ b ∈ l, 128 ≤ b) → l.head? ≠ some 128 →
      try_get_base_128 l = .error .Truncated) := by
  refine ⟨?_, ?_, ?_, ?_, ?_⟩
  · intro v rest hv
    rw [encodeBase128]
    by_cases h1 : v < 128
    · rw [if_pos h1]
      show try_get_base_128_loop 5 0 (v :: rest) = _
      rw [try_get_base_128_loop]
      rw [if_neg (by omega), if_neg (by omega), if_pos h1]
      exact congrArg Except.ok (Prod.mk.injEq _ _ _ _ ▸ ⟨by omega, rfl⟩)
    rw [if_neg h1]
    by_cases h2 : v < 16384
    · rw [if_pos h2]
      show try_get_base_128_loop 5 0 ((v / 128 + 128) :: v % 128 :: rest) = _
      rw [try_get_base_128_loop]
      rw [if_neg (by omega), if_neg (by omega), if_neg (by omega)]
      show try_get_base_128_loop (3 + 1) _ _ = _
      rw [try_get_base_128_loop]
      rw [if_neg (by omega), if_neg (by omega), if_pos (by omega)]
      exact congrArg Except.ok (Prod.mk.injEq _ _ _ _ ▸ ⟨by omega, rfl⟩)
    rw [if_neg h2]
    by_cases h3 : v < 2097152
    · rw [if_pos h3]
      show try_get_base_128_loop 5 0
        ((v / 16384 + 128) :: (v / 128 % 128 + 128) :: v % 128 :: rest) = _
      rw [try_get_base_128_loop]
      rw [if_neg (by omega), if_neg (by omega), if_neg (by omega)]
      show try_get_base_128_loop (3 + 1) _ _ = _
      rw [try_get_base_128_loop]
      rw [if_neg (by omega), if_neg (by omega), if_neg (by omega)]
      show try_get_base_128_loop (2 + 1) _ _ = _
      rw [try_get_base_128_loop]
      rw [if_neg (by omega), if_neg (by omega), if_pos (by omega)]
      exact congrArg Except.ok (Prod.mk.injEq _ _ _ _ ▸ ⟨by omega, rfl⟩)
    rw [if_neg h3]
    by_cases h4 : v < 268435456
    · rw [if_pos h4]
      show try_get_base_128_loop 5 0
        ((v / 2097152 + 128) :: (v / 16384 % 128 + 128) :: (v / 128 % 128 + 128) ::
          v % 128 :: rest) = _
      rw [try_get_base_128_loop]
      rw [if_neg (by omega), if_neg (by omega), if_neg (by omega)]
      show try_get_base_128_loop (3 + 1) _ _ = _
      rw [try_get_base_128_loop]
      rw [if_neg (by omega), if_neg (by omega), if_neg (by omega)]
      show try_get_base_128_loop (2 + 1) _ _ = _
      rw [try_get_base_128_loop]
      rw [if_neg (by omega), if_neg (by omega), if_neg (by omega)]
      show try_get_base_128_loop (1 + 1) _ _ = _
      rw [try_get_base_128_loop]
      rw [if_neg (by omega), if_neg (by omega), if_pos (by omega)]
      exact congrArg Except.ok (Prod.mk.injEq _ _ _ _ ▸ ⟨by omega, rfl⟩)
    rw [if_neg h4]
    show try_get_base_128_loop 5 0
      ((v / 268435456 + 128) :: (v / 2097152 % 128 + 128) :: (v / 16384 % 128 + 128) ::
        (v / 128 % 128 + 128) :: v % 128 :: rest) = _
    rw [try_get_base_128_loop]
    rw [if_neg (by omega), if_neg (by omega), if_neg (by omega)]
    show try_get_base_128_loop (3 + 1) _ _ = _
    rw [try_get_base_128_loop]
    rw [if_neg (by omega), if_neg (by omega), if_neg (by omega)]
    show try_get_base_128_loop (2 + 1) _ _ = _
    rw [try_get_base_128_loop]
    rw [if_neg (by omega), if_neg (by omega), if_neg (by omega)]
    show try_get_base_128_loop (1 + 1) _ _ = _
    rw [try_get_base_128_loop]
    rw [if_neg (by omega), if_neg (by omega), if_neg (by omega)]
    show try_get_base_128_loop (0 + 1) _ _ = _
    rw [try_get_base_128_loop]
    rw [if_neg (by omega), if_neg (by omega), if_pos (by omega)]
    exact congrArg Except.ok (Prod.mk.injEq _ _ _ _ ▸ ⟨by omega, rfl⟩)
  · intro l
    show try_get_base_128_loop 5 0 (128 :: l) = _
    rw [try_get_base_128_loop]
    simp
  · intro b0 b1 b2 b3 b4 rest hc0 hnz hc1 hc2 hc3 hov
    show try_get_base_128_loop 5 0 (b0 :: b1 :: b2 :: b3 :: b4 :: rest) = _
    rw [try_get_base_128_loop]
    rw [if_neg (by omega), if_neg (by omega), if_neg (by omega)]
    show try_get_base_128_loop (3 + 1) _ _ = _
    rw [try_get_base_128_loop]
    rw [if_neg (by omega), if_neg (by omega), if_neg (by omega)]
    show try_get_base_128_loop (2 + 1) _ _ = _
    rw [try_get_base_128_loop]
    rw [if_neg (by omega), if_neg (by omega), if_neg (by omega)]
    show try_get_base_128_loop (1 + 1) _ _ = _
    rw [try_get_base_128_loop]
    rw [if_neg (by omega), if_neg (by omega), if_neg (by omega)]
    show try_get_base_128_loop (0 + 1) _ _ = _
    rw [try_get_base_128_loop]
    rw [if_neg (by omega), if_pos (by omega)]
  · intro b0 b1 b2 b3 b4 rest hc0 hnz hc1 hc2 hc3 hc4 hov
    show try_get_base_128_loop 5 0 (b0 :: b1 :: b2 :: b3 :: b4 :: rest) = _
    rw [try_get_base_128_loop]
    rw [if_neg (by omega), if_neg (by omega), if_neg (by omega)]
    show try_get_base_128_loop (3 + 1) _ _ = _
    rw [try_get_base_128_loop]
    rw [if_neg (by omega), if_neg (by omega), if_neg (by omega)]
    show try_get_base_128_loop (2 + 1) _ _ = _
    rw [try_get_base_128_loop]
    rw [if_neg (by omega), if_neg (by omega), if_neg (by omega)]
    show try_get_base_128_loop (1 + 1) _ _ = _
    rw [try_get_base_128_loop]
    rw [if_neg (by omega), if_neg (by omega), if_neg (by omega)]
    show try_get_base_128_loop (0 + 1) _ _ = _
    rw [try_get_base_128_loop]
    rw [if_neg (by omega), if_neg (by omega), if_neg (by omega)]
    rfl
  · intro l hlen hcont hhead
    match l, hlen with
    | [], _ => rfl
    | [b0], _ =>
      have h0 := hcont b0 (by simp)
      have hne : b0 ≠ 128 := by simpa using hhead
      show try_get_base_128_loop 5 0 [b0] = _
      rw [try_get_base_128_loop]
      rw [if_neg (by omega), if_neg (by omega), if_neg (by omega)]
      rfl
    | [b0, b1], _ =>
      have h0 := hcont b0 (by simp)
      have h1 := hcont b1 (by simp)
      have hne : b0 ≠ 128 := by simpa using hhead
      show try_get_base_128_loop 5 0 [b0, b1] = _
      rw [try_get_base_128_loop]
      rw [if_neg (by omega), if_neg (by omega), if_neg (by omega)]
      show try_get_base_128_loop (3 + 1) _ _ = _
      rw [try_get_base_128_loop]
      rw [if_neg (by omega), if_neg (by omega), if_neg (by omega)]
      rfl
    | [b0, b1, b2], _ =>
      have h0 := hcont b0 (by simp)
      have h1 := hcont b1 (by simp)
      have h2 := hcont b2 (by simp)
      have hne : b0 ≠ 128 := by simpa using hhead
      show try_get_base_128_loop 5 0 [b0, b1, b2] = _
      rw [try_get_base_128_loop]
      rw [if_neg (by omega), if_neg (by omega), if_neg (by omega)]
      show try_get_base_128_loop (3 + 1) _ _ = _
      rw [try_get_base_128_loop]
      rw [if_neg (by omega), if_neg (by omega), if_neg (by omega)]
      show try_get_base_128_loop (2 + 1) _ _ = _
      rw [try_get_base_128_loop]
      rw [if_neg (by omega), if_neg (by omega), if_neg (by omega)]
      rfl
    | [b0, b1, b2, b3], _ =>
      have h0 := hcont b0 (by simp)
      have h1 := hcont b1 (by simp)
      have h2 := hcont b2 (by simp)
      have h3 := hcont b3 (by simp)
      have hne : b0 ≠ 128 := by simpa using hhead
      show try_get_base_128_loop 5 0 [b0, b1, b2, b3] = _
      rw [try_get_base_128_loop]
      rw [if_neg (by omega), if_neg (by omega), if_neg (by omega)]
      show try_get_base_128_loop (3 + 1) _ _ = _
      rw [try_get_base_128_loop]
      rw [if_neg (by omega), if_neg (by omega), if_neg (by omega)]
      show try_get_base_128_loop (2 + 1) _ _ = _
      rw [try_get_base_128_loop]
      rw [if_neg (by omega), if_neg (by omega), if_neg (by omega)]
      show try_get_base_128_loop (1 + 1) _ _ = _
      rw [try_get_base_128_loop]
      rw [if_neg (by omega), if_neg (by omega), if_neg (by omega)]
      rfl

/-- Witness for C7: the round trip at `v = 128` (encoding `[0x81, 0x00]`,
the fixture of the source's unit test). -/
theorem spec_c7_base_128_witness :
    try_get_base_128 (encodeBase128 128 ++ []) = .ok (128, []) :=
  spec_c7_base_128.1 128 [] (by decide)

/-! ## Verification: C2, the compressed-size check -/

/-- No error surfaced by the stages after the size check carries the
compressed-size message. -/
theorem writeTablesError_message_ne (e : WriteTablesError) :
    writeTablesErrorToDecodeError e ≠
      .Invalid "Compressed stream size does not match header" := by
  cases e with
  | Unsupported feature => simp [writeTablesErrorToDecodeError]
  | GlyfDecoderError g =>
    cases g <;> simp [writeTablesErrorToDecodeError, WriteTablesError.message,
      GlyfDecoderError.message]
  | _ => simp [writeTablesErrorToDecodeError, WriteTablesError.message]

/-- C2: for every input that passes header, table-directory and (if
`ttcf`) collection parsing, and for which the Brotli oracle succeeds
consuming `consumed` bytes, the conversion fails with
`Invalid("Compressed stream size does not match header")` if and only if
`consumed` differs from `total_compressed_size + 1`. -/
theorem spec_c2_compressed_size (brotli : List Nat → Option (List Nat × Nat))
    (input : List Nat) (header : Woff2Header) (r1 r2 r3 : List Nat)
    (td : Woff2TableDirectory) (dec : List Nat) (consumed : Nat)
    (hheader : Woff2Header.from_buf input = some (header, r1))
    (hvalid : header.is_valid_header = true)
    (hflavor : header.flavor = TTF_COLLECTION_FLAVOR ∨ header.flavor = TTF_CFF_FLAVOR ∨
      header.flavor = TTF_TRUE_TYPE_FLAVOR)
    (hdir : Woff2TableDirectory.from_buf r1 header.num_tables = .ok (td, r2))
    (hcoll : if header.flavor = TTF_COLLECTION_FLAVOR
      then ∃ ch, CollectionHeader.from_buf r2 header.num_tables = .ok (ch, r3)
      else r3 = r2)
    (hbrotli : brotli r3 = some (dec, consumed)) :
    convert_woff2_to_ttf brotli input =
      .error (.Invalid "Compressed stream size does not match header") ↔
      consumed ≠ header.total_compressed_size + 1 := by
  rw [convert_woff2_to_ttf, convertAux, hheader]
  simp only [hvalid, Bool.not_true, Bool.false_eq_true, if_false, not_true_eq_false,
    ite_false]
  rw [if_neg (not_not_intro hflavor), hdir]
  simp only []
  have hstep : ∃ oc : Option CollectionHeader,
      (if header.flavor = TTF_COLLECTION_FLAVOR then
        match CollectionHeader.from_buf r2 header.num_tables with
        | .error e => (.error (.Invalid e.message) :
            Except DecodeError (Option CollectionHeader × List Nat))
        | .ok (collection_header, r3) => .ok (some collection_header, r3)
      else .ok (none, r2)) = .ok (oc, r3) := by
    by_cases httcf : header.flavor = TTF_COLLECTION_FLAVOR
    · rw [if_pos httcf] at hcoll ⊢
      obtain ⟨ch, hch⟩ := hcoll
      exact ⟨some ch, by rw [hch]⟩
    · rw [if_neg httcf] at hcoll ⊢
      exact ⟨none, by rw [hcoll]⟩
  obtain ⟨oc, hstep⟩ := hstep
  rw [hstep]
  simp only [hbrotli]
  by_cases hsz : consumed ≠ header.total_compressed_size + 1
  · rw [if_pos hsz]
    simp only [ne_eq, hsz, not_false_iff, iff_true]
    rfl
  · rw [if_neg hsz]
    simp only [ne_eq, hsz, iff_false, not_not]
    rcases oc with _ | ch
    · rcases hw : Woff2TableDirectory.write_to_buf td
          (List.replicate (calculate_header_size td.tables.length) 0) dec with
        e | ⟨out1, ttf_tables⟩
      · cases e <;>
          simp [hw, Except.map, WriteTablesError.message, GlyfDecoderError.message]
        rename_i g
        cases g <;> simp [GlyfDecoderError.message]
      · simp only [hw]
        rcases hf : (TableDirectory.new header.flavor ttf_tables).find_table HEAD_TAG with
          _ | hr
        · simp [hf, Except.map]
        · rcases hsc : set_checksum_adjustment
              ((((TableDirectory.new header.flavor ttf_tables).writeBytes ++
                List.drop (calculate_header_size td.tables.length) out1).drop hr.offset).take
                  hr.length)
              (calculate_font_checksum_adjustment
                ((TableDirectory.new header.flavor ttf_tables).writeBytes ++
                  List.drop (calculate_header_size td.tables.length) out1)) with
            _ | patched
          · simp [hf, hsc, Except.map]
          · simp [hf, hsc, Except.map]
    · rcases hw : Woff2TableDirectory.write_to_buf td
          (List.replicate ch.calculate_header_size 0) dec with
        e | ⟨out1, ttf_tables⟩
      · cases e <;>
          simp [hw, Except.map, WriteTablesError.message, GlyfDecoderError.message]
        rename_i g
        cases g <;> simp [GlyfDecoderError.message]
      · simp [hw, Except.map]

/-- Input for the C2 witness: a valid header (TrueType flavor,
one `head` table, `total_compressed_size = 4`), directory `[0x01, 12]`,
then compressed-stream bytes. -/
def c2in : List Nat :=
  [119, 79, 70, 50,  0, 1, 0, 0,  0, 0, 0, 0,  0, 1,  0, 0,
   0, 0, 0, 0,  0, 0, 0, 4,  0, 0,  0, 0,
   0, 0, 0, 0,  0, 0, 0, 0,  0, 0, 0, 0,  0, 0, 0, 0,  0, 0, 0, 0,
   1, 12,  9, 9, 9, 9, 9]

/-- The header parsed from `c2in`. -/
def c2header : Woff2Header :=
  ⟨⟨119, 79, 70, 50⟩, ⟨0, 1, 0, 0⟩, 0, 1, 0, 0, 4, 0, 0, 0, 0, 0, 0, 0⟩

/-- The directory parsed from `c2in`. -/
def c2td : Woff2TableDirectory := ⟨[⟨false, HEAD_TAG, 12, 12, 0⟩], 12⟩

/-- A Brotli oracle that consumes 7 bytes, one more than
`total_compressed_size + 1`. -/
def c2brotli : List Nat → Option (List Nat × Nat) := fun _ => some ([0], 7)

/-- Witness for C2: the mismatching consumed count yields exactly the
compressed-size error. -/
theorem spec_c2_compressed_size_witness :
    convert_woff2_to_ttf c2brotli c2in =
      .error (.Invalid "Compressed stream size does not match header") :=
  (spec_c2_compressed_size c2brotli c2in c2header [1, 12, 9, 9, 9, 9, 9]
    [9, 9, 9, 9, 9] [9, 9, 9, 9, 9] c2td [0] 7 rfl rfl (Or.inr (Or.inr rfl)) rfl
    (by rw [if_neg (by decide)]) rfl).mpr (by decide)

/-! ## Verification: invariants of the table write-out (for C1 and C10) -/

/-- Padding appends zero bytes. -/
theorem pad4_eq_append (l : List Nat) :
    pad_to_multiple_of_four l = l ++ List.replicate ((4 - l.length % 4) % 4) 0 := rfl

/-- The padded length is a multiple of four. -/
theorem pad4_length_mod (l : List Nat) : (pad_to_multiple_of_four l).length % 4 = 0 := by
  rw [pad4_eq_append, List.length_append, List.length_replicate]
  omega

/-- The original buffer is a prefix of the padded buffer. -/
theorem pad4_length_le (l : List Nat) : l.length ≤ (pad_to_multiple_of_four l).length := by
  rw [pad4_eq_append, List.length_append]
  omega

/-- Reading inside the left part of an append sees only the left part. -/
theorem readBytes_append_left (l t : List Nat) (p n : Nat) (h : p + n ≤ l.length) :
    readBytes (l ++ t) p n = readBytes l p n := by
  unfold readBytes
  rw [List.drop_append_of_le_length (by omega)]
  rw [List.take_append_of_le_length (by rw [List.length_drop]; omega)]

/-- Reading after replacing a length-preserving prefix sees the original. -/
theorem readBytes_prefix_swap (h l : List Nat) (k p n : Nat)
    (hh : h.length = k) (hk : k ≤ p) :
    readBytes (h ++ l.drop k) p n = readBytes l p n := by
  unfold readBytes
  have hp : p = h.length + (p - k) := by omega
  rw [hp, List.drop_append, List.drop_drop]
  congr 2
  omega

/-- What a successful `set_checksum_adjustment` produces. -/
theorem set_checksum_adjustment_ok (head_table : List Nat) (value : Nat)
    (out : List Nat) (h : set_checksum_adjustment head_table value = some out) :
    12 ≤ head_table.length ∧
    out = head_table.take 8 ++ u32BEBytes value ++ head_table.drop 12 ∧
    out.length = head_table.length := by
  unfold set_checksum_adjustment at h
  split at h
  · exact absurd h (by simp)
  · rename_i hlen
    rw [Option.some.injEq] at h
    subst h
    refine ⟨by omega, rfl, ?_⟩
    rw [List.length_append, List.length_append, List.length_take, List.length_drop]
    simp only [u32BEBytes, List.length_cons, List.length_nil]
    omega

/-- The per-record invariant maintained by `writeTablesLoop`: every record
lies inside the output at a four-byte aligned offset, records are
pairwise disjoint in order, and every `head` record is at least 12 bytes
long with its checksum-adjustment field bytes zero. -/
def goodRecords (out : List Nat) (acc : List TableRecord) : Prop :=
  (∀ r ∈ acc, r.offset % 4 = 0 ∧ r.offset + r.length ≤ out.length ∧
    (r.tag = HEAD_TAG → 12 ≤ r.length ∧ readBytes out (r.offset + 8) 4 = [0, 0, 0, 0])) ∧
  List.Pairwise (fun a b => a.offset + a.length ≤ b.offset) acc

/-- Appending bytes to the output preserves the record invariant. -/
theorem goodRecords_append (out t : List Nat) (acc : List TableRecord)
    (h : goodRecords out acc) : goodRecords (out ++ t) acc := by
  obtain ⟨h1, h2⟩ := h
  refine ⟨?_, h2⟩
  intro r hr
  obtain ⟨ha, hb, hc⟩ := h1 r hr
  refine ⟨ha, by rw [List.length_append]; omega, ?_⟩
  intro hhead
  obtain ⟨hlen, hzero⟩ := hc hhead
  refine ⟨hlen, ?_⟩
  rw [readBytes_append_left out t _ 4 (by omega)]
  exact hzero

/-- Appending one table's bytes at the current end of the output and
pushing its record (offset = old length, length = byte count, then
padding) preserves the record invariant. -/
theorem goodRecords_step (out src : List Nat) (acc : List TableRecord) (tag : FourCC)
    (csum : Nat) (hmod : out.length % 4 = 0) (hgood : goodRecords out acc)
    (hhead : tag = HEAD_TAG → 12 ≤ src.length ∧ readBytes src 8 4 = [0, 0, 0, 0]) :
    goodRecords (pad_to_multiple_of_four (out ++ src))
      (acc ++ [⟨tag, csum, out.length, src.length⟩]) := by
  have hshape : pad_to_multiple_of_four (out ++ src) =
      out ++ (src ++ List.replicate ((4 - (out ++ src).length % 4) % 4) 0) := by
    rw [pad4_eq_append, List.append_assoc]
  obtain ⟨h1, h2⟩ := hgood
  have hold := goodRecords_append out
    (src ++ List.replicate ((4 - (out ++ src).length % 4) % 4) 0) acc ⟨h1, h2⟩
  constructor
  · intro r hr
    rcases List.mem_append.mp hr with hracc | hrnew
    · rw [hshape]
      exact hold.1 r hracc
    · rcases List.mem_singleton.mp hrnew with rfl
      refine ⟨hmod, ?_, ?_⟩
      · dsimp only
        rw [hshape, List.length_append, List.length_append, List.length_replicate]
        omega
      · intro hh
        obtain ⟨hl12, hz⟩ := hhead hh
        refine ⟨hl12, ?_⟩
        rw [hshape]
        unfold readBytes
        rw [List.drop_append 8]
        rw [List.drop_append_of_le_length (by omega)]
        rw [List.take_append_of_le_length (by rw [List.length_drop]; omega)]
        exact hz
  · rw [List.pairwise_append]
    refine ⟨h2, List.pairwise_singleton _ _, ?_⟩
    intro a ha b hb
    rcases List.mem_singleton.mp hb with rfl
    exact (h1 a ha).2.1

/-- Being an append-extension is transitive. -/
theorem append_prefix_trans {a b c : List Nat} (h1 : ∃ t, b = a ++ t)
    (h2 : ∃ t, c = b ++ t) : ∃ t, c = a ++ t := by
  obtain ⟨t1, h1⟩ := h1
  obtain ⟨t2, h2⟩ := h2
  exact ⟨t1 ++ t2, by rw [h2, h1, List.append_assoc]⟩

/-- Padding an extended buffer extends the original buffer. -/
theorem pad4_front_part (a b : List Nat) :
    ∃ t, pad_to_multiple_of_four (a ++ b) = a ++ t :=
  ⟨b ++ List.replicate ((4 - (a ++ b).length % 4) % 4) 0, by
    rw [pad4_eq_append, List.append_assoc]⟩

/-- The core invariant of the write-out loop: a successful run only
appends to the output, keeps its length a multiple of four, extends the
record list by exactly one record per directory entry, keeps all records
good, and places every new record at or after the old end of the output. -/
theorem writeTablesLoop_invariant :
    ∀ (n : Nat) (ts : List TableDirectoryEntry) (out dec : List Nat)
      (acc : List TableRecord) (out' : List Nat) (acc' : List TableRecord),
      ts.length ≤ n →
      writeTablesLoop ts out dec acc = .ok (out', acc') →
      out.length % 4 = 0 → goodRecords out acc →
      (∃ tail, out' = out ++ tail) ∧ out'.length % 4 = 0 ∧ goodRecords out' acc' ∧
      acc'.length = acc.length + ts.length ∧
      ∃ newr, acc' = acc ++ newr ∧ ∀ r ∈ newr, out.length ≤ r.offset := by
  intro n
  induction n with
  | zero =>
    intro ts out dec acc out' acc' hlen h hmod hgood
    match ts, hlen with
    | [], _ =>
      simp only [writeTablesLoop, Except.ok.injEq, Prod.mk.injEq] at h
      obtain ⟨h1, h2⟩ := h
      subst h1; subst h2
      exact ⟨⟨[], by simp⟩, hmod, hgood, by simp, [], by simp, by simp⟩
  | succ m ih =>
    intro ts out dec acc out' acc' hlen h hmod hgood
    match ts with
    | [] =>
      simp only [writeTablesLoop, Except.ok.injEq, Prod.mk.injEq] at h
      obtain ⟨h1, h2⟩ := h
      subst h1; subst h2
      exact ⟨⟨[], by simp⟩, hmod, hgood, by simp, [], by simp, by simp⟩
    | table :: rest =>
      rw [writeTablesLoop.eq_def] at h
      simp only [] at h
      by_cases hglyf : table.tag = GLYF_TAG
      · rw [if_pos hglyf] at h
        match rest, hlen with
        | [], _ => exact absurd h (by simp)
        | next :: rest2, hlen =>
          simp only [] at h
          by_cases hloca : next.tag ≠ LOCA_TAG
          · rw [if_pos hloca] at h
            exact absurd h (by simp)
          rw [if_neg hloca] at h
          rw [not_not] at hloca
          by_cases htrne : next.transformed ≠ table.transformed
          · rw [if_pos htrne] at h
            exact absurd h (by simp)
          rw [if_neg htrne] at h
          by_cases htrans : table.transformed
          · rw [if_pos htrans] at h
            rcases hdec : decode_glyf_table (sliceSource dec table) with e | ⟨glyf, loca⟩ <;>
              rw [hdec] at h
            · exact absurd h (by simp)
            simp only [] at h
            have hg1 : goodRecords (pad_to_multiple_of_four (out ++ glyf))
                (acc ++ [⟨table.tag, calculate_checksum glyf, out.length, glyf.length⟩]) :=
              goodRecords_step out glyf acc table.tag _ hmod hgood
                (fun hh => absurd (hglyf ▸ hh) (by decide))
            have hg2 : goodRecords
                (pad_to_multiple_of_four (pad_to_multiple_of_four (out ++ glyf) ++ loca))
                ((acc ++ [⟨table.tag, calculate_checksum glyf, out.length, glyf.length⟩]) ++
                  [⟨next.tag, calculate_checksum loca,
                    (pad_to_multiple_of_four (out ++ glyf)).length, loca.length⟩]) :=
              goodRecords_step _ loca _ next.tag _ (pad4_length_mod _) hg1
                (fun hh => absurd (hloca ▸ hh) (by decide))
            have hih := ih rest2 _ dec _ out' acc' (by simp at hlen ⊢; omega) h
              (pad4_length_mod _) hg2
            obtain ⟨⟨tail2, htail2⟩, hmod', hgood', hlen', newr, hnewr, hoff⟩ := hih
            have hle1 : out.length ≤ (pad_to_multiple_of_four (out ++ glyf)).length := by
              have := pad4_length_le (out ++ glyf)
              rw [List.length_append] at this
              omega
            have hle2 : (pad_to_multiple_of_four (out ++ glyf)).length ≤
                (pad_to_multiple_of_four (pad_to_multiple_of_four (out ++ glyf) ++
                  loca)).length := by
              have := pad4_length_le (pad_to_multiple_of_four (out ++ glyf) ++ loca)
              rw [List.length_append] at this
              omega
            refine ⟨?_, hmod', hgood', ?_, ?_⟩
            · exact append_prefix_trans (pad4_front_part out glyf)
                (append_prefix_trans (pad4_front_part _ loca) ⟨tail2, htail2⟩)
            · rw [hlen']
              simp
              omega
            · refine ⟨[⟨table.tag, calculate_checksum glyf, out.length, glyf.length⟩,
                ⟨next.tag, calculate_checksum loca,
                  (pad_to_multiple_of_four (out ++ glyf)).length, loca.length⟩] ++ newr,
                by rw [hnewr]; simp, ?_⟩
              intro r hr
              rcases List.mem_append.mp hr with hr2 | hrn
              · simp only [List.mem_cons, List.not_mem_nil, or_false] at hr2
                rcases hr2 with rfl | rfl
                · exact Nat.le_refl _
                · exact hle1
              · exact Nat.le_trans (Nat.le_trans hle1 hle2) (hoff r hrn)
          · rw [if_neg htrans] at h
            simp only [push_simple_table_record] at h
            have hg1 : goodRecords (pad_to_multiple_of_four (out ++ sliceSource dec table))
                (acc ++ [⟨table.tag, calculate_checksum (sliceSource dec table), out.length,
                  (sliceSource dec table).length⟩]) :=
              goodRecords_step out _ acc table.tag _ hmod hgood
                (fun hh => absurd (hglyf ▸ hh) (by decide))
            have hg2 := goodRecords_step (pad_to_multiple_of_four
                (out ++ sliceSource dec table)) (sliceSource dec next) _ next.tag
                (calculate_checksum (sliceSource dec next)) (pad4_length_mod _) hg1
                (fun hh => absurd (hloca ▸ hh) (by decide))
            have hih := ih rest2 _ dec _ out' acc' (by simp at hlen ⊢; omega) h
              (pad4_length_mod _) hg2
            obtain ⟨⟨tail2, htail2⟩, hmod', hgood', hlen', newr, hnewr, hoff⟩ := hih
            have hle1 : out.length ≤
                (pad_to_multiple_of_four (out ++ sliceSource dec table)).length := by
              have := pad4_length_le (out ++ sliceSource dec table)
              rw [List.length_append] at this
              omega
            have hle2 : (pad_to_multiple_of_four (out ++ sliceSource dec table)).length ≤
                (pad_to_multiple_of_four (pad_to_multiple_of_four
                  (out ++ sliceSource dec table) ++ sliceSource dec next)).length := by
              have := pad4_length_le (pad_to_multiple_of_four
                (out ++ sliceSource dec table) ++ sliceSource dec next)
              rw [List.length_append] at this
              omega
            refine ⟨?_, hmod', hgood', ?_, ?_⟩
            · exact append_prefix_trans (pad4_front_part out (sliceSource dec table))
                (append_prefix_trans (pad4_front_part _ (sliceSource dec next))
                  ⟨tail2, htail2⟩)
            · rw [hlen']
              simp
              omega
            · refine ⟨[⟨table.tag, calculate_checksum (sliceSource dec table), out.length,
                (sliceSource dec table).length⟩,
                ⟨next.tag, calculate_checksum (sliceSource dec next),
                  (pad_to_multiple_of_four (out ++ sliceSource dec table)).length,
                  (sliceSource dec next).length⟩] ++ newr,
                by rw [hnewr]; simp, ?_⟩
              intro r hr
              rcases List.mem_append.mp hr with hr2 | hrn
              · simp only [List.mem_cons, List.not_mem_nil, or_false] at hr2
                rcases hr2 with rfl | rfl
                · exact Nat.le_refl _
                · exact hle1
              · exact Nat.le_trans (Nat.le_trans hle1 hle2) (hoff r hrn)
      · rw [if_neg hglyf] at h
        by_cases hloca2 : table.tag = LOCA_TAG
        · rw [if_pos hloca2] at h
          exact absurd h (by simp)
        rw [if_neg hloca2] at h
        by_cases hhead : table.tag = HEAD_TAG
        · rw [if_pos hhead] at h
          rcases hsc : set_checksum_adjustment (sliceSource dec table) 0 with _ | zeroed <;>
            rw [hsc] at h
          · exact absurd h (by simp)
          simp only [] at h
          obtain ⟨hlen12, hzshape, hzlen⟩ := set_checksum_adjustment_ok _ _ _ hsc
          have h8 : ((sliceSource dec table).take 8).length = 8 := by
            rw [List.length_take]
            omega
          have hz8 : readBytes zeroed 8 4 = [0, 0, 0, 0] := by
            rw [hzshape]
            unfold readBytes
            rw [List.append_assoc]
            rw [List.drop_append_of_le_length (by rw [h8])]
            rw [List.drop_eq_nil_of_le (by rw [h8]), List.nil_append]
            rw [List.take_append_of_le_length (by simp [u32BEBytes])]
            rfl
          have hg1 : goodRecords (pad_to_multiple_of_four (out ++ zeroed))
              (acc ++ [⟨table.tag, calculate_checksum zeroed, out.length, zeroed.length⟩]) :=
            goodRecords_step out zeroed acc table.tag _ hmod hgood
              (fun _ => ⟨by omega, hz8⟩)
          have hih := ih rest _ dec _ out' acc' (by simp at hlen ⊢; omega) h
            (pad4_length_mod _) hg1
          obtain ⟨⟨tail2, htail2⟩, hmod', hgood', hlen', newr, hnewr, hoff⟩ := hih
          have hle1 : out.length ≤ (pad_to_multiple_of_four (out ++ zeroed)).length := by
            have := pad4_length_le (out ++ zeroed)
            rw [List.length_append] at this
            omega
          refine ⟨?_, hmod', hgood', ?_, ?_⟩
          · exact append_prefix_trans (pad4_front_part out zeroed) ⟨tail2, htail2⟩
          · rw [hlen']
            simp
            omega
          · refine ⟨[⟨table.tag, calculate_checksum zeroed, out.length, zeroed.length⟩] ++
              newr, by rw [hnewr]; simp, ?_⟩
            intro r hr
            rcases List.mem_append.mp hr with hr2 | hrn
            · rcases List.mem_singleton.mp hr2 with rfl
              exact Nat.le_refl _
            · exact Nat.le_trans hle1 (hoff r hrn)
        · rw [if_neg hhead] at h
          by_cases hhmtx : table.tag = HMTX_TAG ∧ table.transformed = true
          · rw [if_pos hhmtx] at h
            exact absurd h (by simp)
          rw [if_neg hhmtx] at h
          simp only [push_simple_table_record] at h
          have hg1 : goodRecords (pad_to_multiple_of_four (out ++ sliceSource dec table))
              (acc ++ [⟨table.tag, calculate_checksum (sliceSource dec table), out.length,
                (sliceSource dec table).length⟩]) :=
            goodRecords_step out _ acc table.tag _ hmod hgood
              (fun hh => absurd hh hhead)
          have hih := ih rest _ dec _ out' acc' (by simp at hlen ⊢; omega) h
            (pad4_length_mod _) hg1
          obtain ⟨⟨tail2, htail2⟩, hmod', hgood', hlen', newr, hnewr, hoff⟩ := hih
          have hle1 : out.length ≤
              (pad_to_multiple_of_four (out ++ sliceSource dec table)).length := by
            have := pad4_length_le (out ++ sliceSource dec table)
            rw [List.length_append] at this
            omega
          refine ⟨?_, hmod', hgood', ?_, ?_⟩
          · exact append_prefix_trans (pad4_front_part out (sliceSource dec table))
              ⟨tail2, htail2⟩
          · rw [hlen']
            simp
            omega
          · refine ⟨[⟨table.tag, calculate_checksum (sliceSource dec table), out.length,
              (sliceSource dec table).length⟩] ++ newr, by rw [hnewr]; simp, ?_⟩
            intro r hr
            rcases List.mem_append.mp hr with hr2 | hrn
            · rcases List.mem_singleton.mp hr2 with rfl
              exact Nat.le_refl _
            · exact Nat.le_trans hle1 (hoff r hrn)

/-- A table record serialises to 16 bytes. -/
theorem tableRecord_writeBytes_length (r : TableRecord) : r.writeBytes.length = 16 := by
  simp [TableRecord.writeBytes, FourCC.bytes, u32BEBytes]

/-- The concatenated records serialise to 16 bytes each. -/
theorem flatten_records_length :
    ∀ l : List TableRecord, ((l.map TableRecord.writeBytes).flatten).length = 16 * l.length
  | [] => by simp
  | r :: rest => by
    simp only [List.map_cons, List.flatten_cons, List.length_append,
      tableRecord_writeBytes_length, flatten_records_length rest, List.length_cons]
    ring

/-- The serialised table directory is exactly `calculate_header_size` bytes. -/
theorem tableDirectory_writeBytes_length (d : TableDirectory) :
    d.writeBytes.length = calculate_header_size d.table_records.length := by
  rw [TableDirectory.writeBytes]
  rw [List.length_append, List.length_append, List.length_append, List.length_append,
    List.length_append, flatten_records_length]
  simp [FourCC.bytes, u16BEBytes, calculate_header_size]

/-- The serialised directory of `TableDirectory.new` has the header size of
its input list. -/
theorem tableDirectoryNew_writeBytes_length (sfnt_version : FourCC)
    (table_records : List TableRecord) :
    (TableDirectory.new sfnt_version table_records).writeBytes.length =
      calculate_header_size table_records.length := by
  rw [tableDirectory_writeBytes_length,
    (tableDirectoryNew_fields sfnt_version table_records).1,
    List.length_insertionSort]

/-- The checksum of the four bytes of a `u32` is the `u32`. -/
theorem checksum_u32BEBytes (v : Nat) :
    calculate_checksum (u32BEBytes v) = v % 4294967296 := by
  simp only [u32BEBytes, calculate_checksum, wordBE]
  omega

/-- The output with the four checksum-adjustment bytes of the `head` table
at offset `off` replaced by zero (what the claim calls the output computed
with that field zeroed). -/
def zeroAdjust (l : List Nat) (off : Nat) : List Nat :=
  l.take (off + 8) ++ [0, 0, 0, 0] ++ l.drop (off + 12)

/-- If the field is already zero, zeroing it does nothing. -/
theorem zeroAdjust_eq_self (l : List Nat) (off : Nat)
    (hz : readBytes l (off + 8) 4 = [0, 0, 0, 0]) (hle : off + 12 ≤ l.length) :
    zeroAdjust l off = l := by
  unfold zeroAdjust
  unfold readBytes at hz
  conv_rhs => rw [← List.take_append_drop (off + 8) l]
  rw [List.append_assoc]
  congr 1
  rw [← hz]
  conv_rhs => rw [← List.take_append_drop 4 (l.drop (off + 8))]
  congr 1
  rw [List.drop_drop]

/-- The offsets block of the collection header is 4 bytes per font. -/
theorem collectionOffsetsBytes_length :
    ∀ (fonts : List CollectionFontEntry) (off : Nat),
      (collectionOffsetsBytes fonts off).length = 4 * fonts.length
  | [], _ => by simp [collectionOffsetsBytes]
  | f :: rest, off => by
    simp only [collectionOffsetsBytes, List.length_append, u32BEBytes, List.length_cons,
      List.length_nil, collectionOffsetsBytes_length rest, List.length_cons]
    ring

/-- The per-font directories block serialises to the sum of the per-font
directory sizes. -/
theorem flatten_fontdirs_length :
    ∀ (fonts : List CollectionFontEntry) (tables : List TableRecord),
      ((fonts.map (fun font =>
        (TableDirectory.new font.flavor
          (font.table_indices.map (fun idx => tables.getD idx default))).writeBytes)).flatten).length =
      (fonts.map (fun font => font.calculate_directory_size)).sum
  | [], _ => by simp
  | f :: rest, tables => by
    simp only [List.map_cons, List.flatten_cons, List.length_append,
      tableDirectoryNew_writeBytes_length, List.length_map, List.sum_cons,
      flatten_fontdirs_length rest tables]
    simp [calculate_header_size, CollectionFontEntry.calculate_directory_size]
    omega

/-- Sum arithmetic for the collection header size. -/
theorem collection_header_size_sum :
    ∀ fonts : List CollectionFontEntry,
      (fonts.map (fun font => 4 + font.calculate_directory_size)).sum =
        4 * fonts.length + (fonts.map (fun font => font.calculate_directory_size)).sum
  | [] => by simp
  | f :: rest => by
    simp only [List.map_cons, List.sum_cons, collection_header_size_sum rest,
      List.length_cons]
    ring

/-- The serialised collection header is exactly `calculate_header_size`
bytes. -/
theorem collectionHeader_writeBytes_length (c : CollectionHeader)
    (tables : List TableRecord) :
    (c.writeBytes tables).length = c.calculate_header_size := by
  unfold CollectionHeader.writeBytes CollectionHeader.calculate_header_size
  simp only [List.length_append, collectionOffsetsBytes_length, flatten_fontdirs_length,
    collection_header_size_sum, FourCC.bytes, u32BEBytes]
  simp
  omega

/-- Reading past an append prefix reads the suffix. -/
theorem readBytes_append_right (x b : List Nat) (p n : Nat) (h : x.length ≤ p) :
    readBytes (x ++ b) p n = readBytes b (p - x.length) n := by
  unfold readBytes
  rw [show p = x.length + (p - x.length) by omega, List.drop_append]
  congr 2
  omega

/-- The collection header size is a multiple of four. -/
theorem collection_header_size_mod4 (c : CollectionHeader) :
    c.calculate_header_size % 4 = 0 := by
  unfold CollectionHeader.calculate_header_size
  have hsum : ∀ fonts : List CollectionFontEntry,
      (fonts.map (fun font => 4 + font.calculate_directory_size)).sum % 4 = 0 := by
    intro fonts
    induction fonts with
    | nil => simp
    | cons f rest ihf =>
      simp only [List.map_cons, List.sum_cons,
        CollectionFontEntry.calculate_directory_size] at ihf ⊢
      omega
  have := hsum c.fonts
  omega

/-- Sorting each font's indices does not change the collection header
size. -/
theorem collection_header_size_map_sort (c : CollectionHeader)
    (tables : List TableRecord) :
    (⟨c.version, c.fonts.map (fun font =>
      (⟨font.flavor, List.insertionSort (idxLE tables) font.table_indices⟩ :
        CollectionFontEntry))⟩ : CollectionHeader).calculate_header_size =
      c.calculate_header_size := by
  unfold CollectionHeader.calculate_header_size
  have hfun : ((fun font : CollectionFontEntry => 4 + font.calculate_directory_size) ∘
      fun font : CollectionFontEntry =>
        (⟨font.flavor, List.insertionSort (idxLE tables) font.table_indices⟩ :
          CollectionFontEntry)) =
      fun font : CollectionFontEntry => 4 + font.calculate_directory_size := by
    funext font
    simp [CollectionFontEntry.calculate_directory_size, List.length_insertionSort,
      Function.comp]
  rw [List.map_map, hfun]

/-- Anatomy of a successful conversion: the output is the written header
followed by the written tables, with records produced by
`writeTablesLoop`; on the non-collection path a final checksum patch is
applied through `set_checksum_adjustment`. -/
theorem convertAux_ok_anatomy (brotli : List Nat → Option (List Nat × Nat))
    (input : List Nat) (res : ConvertResult)
    (h : convertAux brotli input = .ok res) :
    ∃ (td : Woff2TableDirectory) (dec out1 : List Nat) (flavor : FourCC),
      writeTablesLoop td.tables (List.replicate res.header_end 0) dec [] =
        .ok (out1, res.records) ∧
      res.header_end % 4 = 0 ∧
      (res.is_collection = true → ∃ cb : List Nat, cb.length = res.header_end ∧
        res.output = cb ++ out1.drop res.header_end) ∧
      (res.is_collection = false →
        res.header_end = calculate_header_size td.tables.length ∧
        ∃ hr : TableRecord,
          (TableDirectory.new flavor res.records).find_table HEAD_TAG = some hr ∧
          ∃ patched,
            set_checksum_adjustment
              ((((TableDirectory.new flavor res.records).writeBytes ++
                out1.drop res.header_end).drop hr.offset).take hr.length)
              (calculate_font_checksum_adjustment
                ((TableDirectory.new flavor res.records).writeBytes ++
                  out1.drop res.header_end)) = some patched ∧
            res.output = ((TableDirectory.new flavor res.records).writeBytes ++
                out1.drop res.header_end).take hr.offset ++ patched ++
              ((TableDirectory.new flavor res.records).writeBytes ++
                out1.drop res.header_end).drop (hr.offset + hr.length)) := by
  rw [convertAux] at h
  rcases hh : Woff2Header.from_buf input with _ | ⟨header, r1⟩ <;> rw [hh] at h
  · exact absurd h (by simp)
  simp only [] at h
  split at h
  · exact absurd h (by simp)
  split at h
  · exact absurd h (by simp)
  rcases hd : Woff2TableDirectory.from_buf r1 header.num_tables with e | ⟨td, r2⟩ <;>
    rw [hd] at h
  · exact absurd h (by simp)
  simp only [] at h
  split at h
  · exact absurd h (by simp)
  rename_i collection_header r3 hcoll
  rcases hb : brotli r3 with _ | ⟨dec, consumed⟩ <;> rw [hb] at h
  · exact absurd h (by simp)
  simp only [] at h
  split at h
  · exact absurd h (by simp)
  rcases collection_header with _ | ch
  · simp only [] at h
    rcases hw : Woff2TableDirectory.write_to_buf td
        (List.replicate (calculate_header_size td.tables.length) 0) dec with
      e | ⟨out1, ttf_tables⟩ <;> rw [hw] at h
    · rcases e <;> simp at h
    simp only [] at h
    rcases hf : (TableDirectory.new header.flavor ttf_tables).find_table HEAD_TAG with
      _ | hr <;> rw [hf] at h
    · exact absurd h (by simp)
    simp only [] at h
    rcases hsc : set_checksum_adjustment
        ((((TableDirectory.new header.flavor ttf_tables).writeBytes ++
          List.drop (calculate_header_size td.tables.length) out1).drop hr.offset).take
            hr.length)
        (calculate_font_checksum_adjustment
          ((TableDirectory.new header.flavor ttf_tables).writeBytes ++
            List.drop (calculate_header_size td.tables.length) out1)) with _ | patched <;>
      rw [hsc] at h
    · exact absurd h (by simp)
    rw [Except.ok.injEq] at h
    subst h
    refine ⟨td, dec, out1, header.flavor, ?_, ?_, ?_, ?_⟩
    · exact hw
    · show calculate_header_size td.tables.length % 4 = 0
      unfold calculate_header_size
      omega
    · intro hcontra
      exact absurd hcontra (by simp)
    · intro _
      exact ⟨rfl, hr, hf, patched, hsc, rfl⟩
  · simp only [] at h
    rcases hw : Woff2TableDirectory.write_to_buf td
        (List.replicate ch.calculate_header_size 0) dec with
      e | ⟨out1, ttf_tables⟩ <;> rw [hw] at h
    · rcases e <;> simp at h
    simp only [] at h
    rw [Except.ok.injEq] at h
    subst h
    refine ⟨td, dec, out1, header.flavor, ?_, ?_, ?_, ?_⟩
    · exact hw
    · show ch.calculate_header_size % 4 = 0
      exact collection_header_size_mod4 ch
    · intro _
      refine ⟨(⟨ch.version, ch.fonts.map (fun font =>
          ⟨font.flavor, List.insertionSort (idxLE ttf_tables) font.table_indices⟩)⟩ :
            CollectionHeader).writeBytes ttf_tables, ?_, rfl⟩
      rw [collectionHeader_writeBytes_length]
      exact collection_header_size_map_sort ch ttf_tables
    · intro hcontra
      exact absurd hcontra (by simp)

/-- C10: on the collection path, every `head` table in the output keeps a
zero checkSumAdjustment field: it is zeroed when the table is copied and
the final checksum patch runs only on the non-collection path. -/
theorem spec_c10_collection_head_zero (brotli : List Nat → Option (List Nat × Nat))
    (input : List Nat) (res : ConvertResult)
    (h : convertAux brotli input = .ok res) (hc : res.is_collection = true) :
    ∀ r ∈ res.records, r.tag = HEAD_TAG →
      readBytes res.output (r.offset + 8) 4 = [0, 0, 0, 0] := by
  obtain ⟨td, dec, out1, flavor, hw, hmod0, hcolcase, _⟩ :=
    convertAux_ok_anatomy brotli input res h
  obtain ⟨cb, hcb, hout⟩ := hcolcase hc
  have hinv := writeTablesLoop_invariant td.tables.length td.tables
    (List.replicate res.header_end 0) dec [] out1 res.records (Nat.le_refl _) hw
    (by rw [List.length_replicate]; exact hmod0)
    ⟨by simp, List.Pairwise.nil⟩
  obtain ⟨⟨tail, htail⟩, hmod1, ⟨hgood1, _⟩, _, newr, hnewr, hoffs⟩ := hinv
  intro r hr htag
  obtain ⟨hmod4, hbound, hhead⟩ := hgood1 r hr
  obtain ⟨h12, hz⟩ := hhead htag
  have hge : res.header_end ≤ r.offset := by
    have hmem : r ∈ newr := by
      rw [List.nil_append] at hnewr
      rw [← hnewr]
      exact hr
    have := hoffs r hmem
    rw [List.length_replicate] at this
    exact this
  rw [hout, readBytes_prefix_swap cb out1 res.header_end _ 4 hcb (by omega)]
  exact hz

instance : Inhabited ConvertResult := ⟨⟨[], [], 0, false⟩⟩

/-- Input for the C10 witness: a `ttcf` collection with a single `head`
table of 12 bytes. -/
def c10in : List Nat :=
  [119, 79, 70, 50,  116, 116, 99, 102,  0, 0, 0, 0,  0, 1,  0, 0,
   0, 0, 0, 0,  0, 0, 0, 4,  0, 0,  0, 0,
   0, 0, 0, 0,  0, 0, 0, 0,  0, 0, 0, 0,  0, 0, 0, 0,  0, 0, 0, 0,
   1, 12,
   0, 1, 0, 0,  1,  1,  0, 1, 0, 0,  0,
   9, 9, 9, 9, 9]

/-- Brotli oracle for the C10 witness: 12 decompressed `head` bytes,
5 bytes consumed. -/
def c10brotli : List Nat → Option (List Nat × Nat) :=
  fun _ => some ([1, 2, 3, 4, 5, 6, 7, 8, 9, 10, 11, 12], 5)

/-- The successful conversion result of the C10 witness input. -/
def c10res : ConvertResult :=
  match convertAux c10brotli c10in with
  | .ok r => r
  | .error _ => default

/-- Witness for C10: the head record of the collection output has a zero
checksum-adjustment field. -/
theorem spec_c10_collection_head_zero_witness :
    readBytes c10res.output ((c10res.records.getD 0 default).offset + 8) 4 = [0, 0, 0, 0] :=
  spec_c10_collection_head_zero c10brotli c10in c10res (by rfl) (by rfl)
    (c10res.records.getD 0 default) (by decide) (by decide)

/-- Effect of the final checksum patch on a buffer whose target field is
zero: the patched buffer checksums to `0xB1B0AFBA`, the field holds the
adjustment bytes, re-zeroing the field recovers the unpatched buffer, and
bytes outside the field are unchanged. -/
theorem checksum_patch (out2 : List Nat) (off len : Nat) (patched : List Nat)
    (hmod2 : out2.length % 4 = 0) (hoffmod : off % 4 = 0) (h12 : 12 ≤ len)
    (hbound : off + len ≤ out2.length)
    (hz : readBytes out2 (off + 8) 4 = [0, 0, 0, 0])
    (hsc : set_checksum_adjustment ((out2.drop off).take len)
      (calculate_font_checksum_adjustment out2) = some patched) :
    calculate_checksum (out2.take off ++ patched ++ out2.drop (off + len)) = 0xB1B0AFBA ∧
    (out2.take off ++ patched ++ out2.drop (off + len)).length = out2.length ∧
    zeroAdjust (out2.take off ++ patched ++ out2.drop (off + len)) off = out2 ∧
    readBytes (out2.take off ++ patched ++ out2.drop (off + len)) (off + 8) 4 =
      u32BEBytes (calculate_font_checksum_adjustment out2) ∧
    ∀ p, (p + 4 ≤ off + 8 ∨ off + 12 ≤ p) →
      readBytes (out2.take off ++ patched ++ out2.drop (off + len)) p 4 =
        readBytes out2 p 4 := by
  obtain ⟨h12s, hpshape, hplen⟩ := set_checksum_adjustment_ok _ _ _ hsc
  have hslen : ((out2.drop off).take len).length = len := by
    rw [List.length_take, List.length_drop]
    omega
  have hshape : out2.take off ++ patched ++ out2.drop (off + len) =
      out2.take (off + 8) ++ u32BEBytes (calculate_font_checksum_adjustment out2) ++
        out2.drop (off + 12) := by
    rw [hpshape]
    have htake8 : ((out2.drop off).take len).take 8 = (out2.drop off).take 8 := by
      rw [List.take_take]
      congr 1
      omega
    have htakeA : out2.take (off + 8) = out2.take off ++ (out2.drop off).take 8 :=
      List.take_add out2 off 8
    have hdrop12 : ((out2.drop off).take len).drop 12 =
        (out2.drop (off + 12)).take (len - 12) := by
      rw [List.drop_take]
      congr 1
      rw [List.drop_drop]
    have hdropB : out2.drop (off + len) = (out2.drop (off + 12)).drop (len - 12) := by
      rw [List.drop_drop]
      congr 1
      omega
    rw [htake8, htakeA, hdrop12, hdropB]
    simp only [List.append_assoc]
    rw [List.take_append_drop]
  have hAlen : (out2.take (off + 8)).length = off + 8 := by
    rw [List.length_take]
    omega
  have hdecomp : out2.take (off + 8) ++ [0, 0, 0, 0] ++ out2.drop (off + 12) = out2 := by
    have := zeroAdjust_eq_self out2 off hz (by omega)
    unfold zeroAdjust at this
    exact this
  have hdecomp' : out2.take (off + 8) ++ ([0, 0, 0, 0] ++ out2.drop (off + 12)) = out2 := by
    rw [← List.append_assoc]
    exact hdecomp
  have hz4 : calculate_checksum [0, 0, 0, 0] = 0 := by decide
  have hAmod : (out2.take (off + 8)).length % 4 = 0 := by
    rw [hAlen]
    omega
  have hadj_lt : calculate_font_checksum_adjustment out2 < 4294967296 :=
    Nat.mod_lt _ (by decide)
  have hcs3 : calculate_checksum (out2.take off ++ patched ++ out2.drop (off + len)) =
      ((calculate_checksum (out2.take (off + 8)) +
        (calculate_font_checksum_adjustment out2 +
          calculate_checksum (out2.drop (off + 12))) % 4294967296) % 4294967296) := by
    rw [hshape, List.append_assoc]
    rw [calculate_checksum_append _ _ hAmod]
    rw [calculate_checksum_append _ _ (by simp [u32BEBytes])]
    rw [checksum_u32BEBytes]
    congr 2
    omega
  have hcs2 : calculate_checksum out2 =
      ((calculate_checksum (out2.take (off + 8)) +
        (0 + calculate_checksum (out2.drop (off + 12))) % 4294967296) % 4294967296) := by
    conv_lhs => rw [← hdecomp']
    rw [calculate_checksum_append _ _ hAmod]
    rw [calculate_checksum_append _ _ (by decide)]
    rw [hz4]
  have hlenout3 : (out2.take off ++ patched ++ out2.drop (off + len)).length =
      out2.length := by
    rw [List.length_append, List.length_append, hplen, hslen, List.length_take,
      List.length_drop]
    omega
  have hfield : readBytes (out2.take off ++ patched ++ out2.drop (off + len)) (off + 8) 4 =
      u32BEBytes (calculate_font_checksum_adjustment out2) := by
    rw [hshape]
    unfold readBytes
    rw [List.append_assoc, List.drop_left' hAlen]
    rw [List.take_append_of_le_length (by simp [u32BEBytes])]
    simp [u32BEBytes]
  refine ⟨?_, hlenout3, ?_, hfield, ?_⟩
  · rw [hcs3]
    have ha := calculate_checksum_lt (out2.take (off + 8))
    have hb := calculate_checksum_lt (out2.drop (off + 12))
    have hc := calculate_checksum_lt out2
    unfold calculate_font_checksum_adjustment at *
    omega
  · unfold zeroAdjust
    rw [hshape]
    have ht : (out2.take (off + 8) ++ u32BEBytes (calculate_font_checksum_adjustment out2)
        ++ out2.drop (off + 12)).take (off + 8) = out2.take (off + 8) := by
      rw [List.append_assoc]
      exact List.take_left' hAlen
    have hd : (out2.take (off + 8) ++ u32BEBytes (calculate_font_checksum_adjustment out2)
        ++ out2.drop (off + 12)).drop (off + 12) = out2.drop (off + 12) := by
      rw [List.append_assoc]
      rw [show off + 12 = (out2.take (off + 8)).length + 4 by omega]
      rw [List.drop_append]
      rw [List.drop_left' (by simp [u32BEBytes])]
    rw [ht, hd]
    exact hdecomp
  · intro p hp
    rcases hp with hlow | hhigh
    · rw [hshape]
      conv_rhs => rw [← hdecomp]
      rw [List.append_assoc, List.append_assoc]
      rw [readBytes_append_left _ _ _ _ (by omega)]
      rw [readBytes_append_left _ _ _ _ (by omega)]
    · rw [hshape]
      conv_rhs => rw [← hdecomp]
      have h1 : (out2.take (off + 8) ++
          u32BEBytes (calculate_font_checksum_adjustment out2)).length = off + 12 := by
        rw [List.length_append, hAlen]
        have h4 : (u32BEBytes (calculate_font_checksum_adjustment out2)).length = 4 := by
          simp [u32BEBytes]
        omega
      have h2 : (out2.take (off + 8) ++ [0, 0, 0, 0]).length = off + 12 := by
        rw [List.length_append, hAlen]
        have h4 : ([0, 0, 0, 0] : List Nat).length = 4 := rfl
        omega
      rw [readBytes_append_right _ _ _ _ (by omega)]
      rw [readBytes_append_right _ _ _ _ (by omega)]
      rw [h1, h2]

/-- A pairwise-related list relates any two of its members in one order or
the other, unless they are equal. -/
theorem pairwise_mem_split {α : Type} {R : α → α → Prop} :
    ∀ (l : List α), List.Pairwise R l → ∀ a b, a ∈ l → b ∈ l →
      a = b ∨ R a b ∨ R b a
  | [], _, _, _, ha, _ => nomatch ha
  | x :: xs, hp, a, b, ha, hb => by
    rw [List.pairwise_cons] at hp
    rcases List.mem_cons.mp ha with rfl | ha'
    · rcases List.mem_cons.mp hb with rfl | hb'
      · exact Or.inl rfl
      · exact Or.inr (Or.inl (hp.1 _ hb'))
    · rcases List.mem_cons.mp hb with rfl | hb'
      · exact Or.inr (Or.inr (hp.1 _ ha'))
      · exact pairwise_mem_split xs hp.2 a b ha' hb'

/-- C1 (amended to the non-collection path): whenever the conversion of a
single font succeeds, the checksum of the whole output is `0xB1B0AFBA`,
and every `head` record's checkSumAdjustment bytes 8..12 hold
`0xB1B0AFBA` minus the checksum of the output with that field zeroed,
wrapping at `2^32`. -/
theorem spec_c1_font_checksum (brotli : List Nat → Option (List Nat × Nat))
    (input : List Nat) (res : ConvertResult)
    (h : convertAux brotli input = .ok res) (hnc : res.is_collection = false) :
    calculate_checksum res.output = 0xB1B0AFBA ∧
    ∀ r ∈ res.records, r.tag = HEAD_TAG →
      readBytes res.output (r.offset + 8) 4 =
        u32BEBytes (calculate_font_checksum_adjustment
          (zeroAdjust res.output r.offset)) := by
  obtain ⟨td, dec, out1, flavor, hw, hmod0, _, hfontcase⟩ :=
    convertAux_ok_anatomy brotli input res h
  obtain ⟨hhe, hr, hfind, patched, hsc, hout⟩ := hfontcase hnc
  have hinv := writeTablesLoop_invariant td.tables.length td.tables
    (List.replicate res.header_end 0) dec [] out1 res.records (Nat.le_refl _) hw
    (by rw [List.length_replicate]; exact hmod0)
    ⟨by simp, List.Pairwise.nil⟩
  obtain ⟨⟨tail, htail⟩, hmod1, ⟨hgood1, hpair⟩, hcount, newr, hnewr, hoffs⟩ := hinv
  have hcount' : res.records.length = td.tables.length := by
    rw [hcount]
    simp
  have hdrlen : (TableDirectory.new flavor res.records).writeBytes.length =
      res.header_end := by
    rw [tableDirectoryNew_writeBytes_length, hcount', hhe]
  have hhele : res.header_end ≤ out1.length := by
    rw [htail, List.length_append, List.length_replicate]
    omega
  set out2 := (TableDirectory.new flavor res.records).writeBytes ++
    out1.drop res.header_end with hout2def
  have hlen2 : out2.length = out1.length := by
    rw [hout2def, List.length_append, hdrlen, List.length_drop]
    omega
  have hge : ∀ r ∈ res.records, res.header_end ≤ r.offset := by
    intro r hrm
    have hmem : r ∈ newr := by
      rw [List.nil_append] at hnewr
      rw [← hnewr]
      exact hrm
    have := hoffs r hmem
    rw [List.length_replicate] at this
    exact this
  have hrec : ∀ r ∈ res.records, r.offset % 4 = 0 ∧ r.offset + r.length ≤ out2.length ∧
      (r.tag = HEAD_TAG → 12 ≤ r.length ∧
        readBytes out2 (r.offset + 8) 4 = [0, 0, 0, 0]) := by
    intro r hrm
    obtain ⟨h4, hb, hh⟩ := hgood1 r hrm
    refine ⟨h4, by rw [hlen2]; exact hb, fun ht => ?_⟩
    obtain ⟨h12, hz⟩ := hh ht
    refine ⟨h12, ?_⟩
    rw [hout2def, readBytes_prefix_swap _ out1 res.header_end _ 4 hdrlen
      (by have := hge r hrm; omega)]
    exact hz
  have hfind' : (List.insertionSort recLE res.records).find?
      (fun r => r.tag = HEAD_TAG) = some hr := hfind
  have htag_hr : hr.tag = HEAD_TAG := by
    have := List.find?_some hfind'
    simpa using this
  have hrmem : hr ∈ res.records := by
    have := List.mem_of_find?_eq_some hfind'
    exact (List.mem_insertionSort recLE).mp this
  obtain ⟨h4off, hbnd, hhh⟩ := hrec hr hrmem
  obtain ⟨h12, hz⟩ := hhh htag_hr
  have hmod2 : out2.length % 4 = 0 := by
    rw [hlen2]
    exact hmod1
  obtain ⟨hcs, hlen3, hzero3, hfield3, houts⟩ :=
    checksum_patch out2 hr.offset hr.length patched hmod2 h4off h12 hbnd hz hsc
  have hcso : calculate_checksum res.output = 0xB1B0AFBA := by
    rw [hout]
    exact hcs
  refine ⟨hcso, ?_⟩
  intro r hrm ht
  obtain ⟨hr4, hrb, hrh⟩ := hrec r hrm
  obtain ⟨hr12, hrz⟩ := hrh ht
  have hsplit : r = hr ∨
      (r.offset + 8 + 4 ≤ hr.offset + 8 ∨ hr.offset + 12 ≤ r.offset + 8) := by
    rcases pairwise_mem_split res.records hpair r hr hrm hrmem with hEq | hd | hd
    · exact Or.inl hEq
    · exact Or.inr (Or.inl (by omega))
    · exact Or.inr (Or.inr (by omega))
  rcases hsplit with rfl | hdisj
  · rw [hout, hzero3, hfield3]
  · have hro : readBytes res.output (r.offset + 8) 4 = [0, 0, 0, 0] := by
      rw [hout, houts (r.offset + 8) hdisj]
      exact hrz
    have hlenout : res.output.length = out2.length := by
      rw [hout]
      exact hlen3
    have hself : zeroAdjust res.output r.offset = res.output :=
      zeroAdjust_eq_self res.output r.offset hro (by rw [hlenout]; omega)
    rw [hro, hself]
    unfold calculate_font_checksum_adjustment
    rw [hcso]
    decide

/-- Input for the C1 witness: a TrueType-flavor font with a single `head`
table of 12 bytes and `total_compressed_size = 4`. -/
def c1in : List Nat :=
  [119, 79, 70, 50,  0, 1, 0, 0,  0, 0, 0, 0,  0, 1,  0, 0,
   0, 0, 0, 0,  0, 0, 0, 4,  0, 0,  0, 0,
   0, 0, 0, 0,  0, 0, 0, 0,  0, 0, 0, 0,  0, 0, 0, 0,  0, 0, 0, 0,
   1, 12,  9, 9, 9, 9, 9]

/-- Brotli oracle for the C1 witness: 12 decompressed `head` bytes,
5 bytes consumed (`total_compressed_size + 1`). -/
def c1brotli : List Nat → Option (List Nat × Nat) :=
  fun _ => some ([1, 2, 3, 4, 5, 6, 7, 8, 9, 10, 11, 12], 5)

/-- The successful conversion result of the C1 witness input. -/
def c1res : ConvertResult :=
  match convertAux c1brotli c1in with
  | .ok r => r
  | .error _ => default

/-- Witness for C1: on the single-font input the output checksums to
`0xB1B0AFBA` and the head field holds the adjustment bytes. -/
theorem spec_c1_font_checksum_witness :
    calculate_checksum c1res.output = 0xB1B0AFBA ∧
    readBytes c1res.output ((c1res.records.getD 0 default).offset + 8) 4 =
      u32BEBytes (calculate_font_checksum_adjustment
        (zeroAdjust c1res.output (c1res.records.getD 0 default).offset)) :=
  ⟨(spec_c1_font_checksum c1brotli c1in c1res (by rfl) (by rfl)).1,
   (spec_c1_font_checksum c1brotli c1in c1res (by rfl) (by rfl)).2
     (c1res.records.getD 0 default) (by decide) (by decide)⟩

/-- Collection input refuting the unrestricted C1: a `ttcf` collection
with a single `head` table of 12 bytes. -/
def c1ttcfIn : List Nat :=
  [119, 79, 70, 50,  116, 116, 99, 102,  0, 0, 0, 0,  0, 1,  0, 0,
   0, 0, 0, 0,  0, 0, 0, 4,  0, 0,  0, 0,
   0, 0, 0, 0,  0, 0, 0, 0,  0, 0, 0, 0,  0, 0, 0, 0,  0, 0, 0, 0,
   1, 12,
   0, 1, 0, 0,  1,  1,  0, 1, 0, 0,  0,
   9, 9, 9, 9, 9]

/-- Brotli oracle for the C1 counterexample input. -/
def c1ttcfBrotli : List Nat → Option (List Nat × Nat) :=
  fun _ => some ([1, 2, 3, 4, 5, 6, 7, 8, 9, 10, 11, 12], 5)

/-- The successful conversion result of the C1 counterexample input. -/
def c1ttcfRes : ConvertResult :=
  match convertAux c1ttcfBrotli c1ttcfIn with
  | .ok r => r
  | .error _ => default

/-- Counterexample to the unrestricted C1: a collection input converts
successfully, yet the whole-output checksum is not `0xB1B0AFBA` — the
final checksum patch runs only on the non-collection path. -/
theorem spec_c1_counterexample :
    convert_woff2_to_ttf c1ttcfBrotli c1ttcfIn = .ok c1ttcfRes.output ∧
    calculate_checksum c1ttcfRes.output ≠ 0xB1B0AFBA := by
  constructor
  · rfl
  · decide
